import Mathlib

/-!
Verification of the reposync interactive workflow engine.

This file gives a shallow embedding, in Lean 4, of the workflow core of the
reposync repository: the mode state machine (internal/tui/model.go), the
sequential sync queue (internal/tui progress model), the template sync engine
(internal/template/sync.go), the template workflow state
(internal/tui/template_state.go), the template file tree browser and the
target selector.  Effectful adapter calls (os.Stat, git clone, file copy,
GitHub API) are modelled by explicit environments supplying their outcomes,
so that every embedded operation is a pure, executable Lean function.
-/

namespace Reposync

/-- View modes of the main model (internal/tui tabs).  The current tab bar has
four tabs: Personal, Organization, Local and Template; model.go switches on
the four constants ModePersonal, ModeOrganization, ModeLocal, ModeTemplate. -/
inductive ViewMode where
  | personal
  | organization
  | localMode
  | template
  deriving DecidableEq, Repr

/-- Model of Go's filepath.Join for the two-argument uses in the repository:
join of a directory and a single name component. -/
def joinPath (dir name : String) : String :=
  if dir = "" then name else dir ++ "/" ++ name

/-- Character-list splitter underlying the model of Go's strings.Split with a
one-character separator: split at every occurrence, keeping empty segments,
with Split("", sep) = [""]. -/
def splitChar : List Char → Char → List (List Char)
  | [], _ => [[]]
  | c :: cs, sep =>
    if c = sep then [] :: splitChar cs sep
    else
      match splitChar cs sep with
      | [] => [[c]]
      | h :: t => (c :: h) :: t

/-- Model of Go's strings.Split(s, "/"), expressed over the character list so
that it computes by kernel reduction. -/
def goSplitSlash (s : String) : List String :=
  (splitChar s.toList (Char.ofNat 47)).map String.mk

namespace Tui

/-- Error values produced inside the sync queue.  Go carries opaque error
values; the embedding distinguishes the error constructions that the queue
itself makes, and wraps adapter-produced errors as `adapter`. -/
inductive GoErr where
  | targetDirNotSet
  | clientInitFailed
  | invalidRepoFormat (name : String)
  | adapter (msg : String)
  deriving DecidableEq, Repr

/-- Per-repository sync outcome (internal/tui/messages.go, SyncResult):
repository name, success flag, optional error. -/
structure SyncResult where
  repo : String
  success : Bool
  error : Option GoErr
  deriving DecidableEq, Repr

/-- Environment for the sync queue's adapter calls: os.Stat existence checks,
GitHub client creation, clone / copy / refresh outcomes (none = success,
some msg = the error returned). -/
structure SyncEnv where
  pathExists : String → Bool
  clientOk : Bool
  cloneErr : String → String → String → Option String
  refreshErrGitHub : String → Option String
  copyErr : String → String → Option String
  refreshErrLocal : String → Option String

/-- State of the sequential sync queue (part_001, InlineProgressModel),
restricted to the workflow fields; rendering-only fields (spinner, progress
bar, timestamps, currentRepo display string, waiting flag) are excluded by
the spec's scope. -/
structure InlineProgressModel where
  repos : List String
  targetDir : String
  mode : String
  current : Nat
  total : Nat
  pendingRepoIdx : Nat
  results : List SyncResult
  skipAll : Bool
  refreshAll : Bool
  deriving DecidableEq, Repr

/-- Message produced by one unrolling of the queue body.  In the Go source
syncNextGitHubRepo / syncNextLocalRepo tail-call m.syncNextRepo()() after a
resolved item; the embedding returns the mutated model as `next` and the
chaining is performed by `runSync`. -/
inductive SyncStepMsg where
  | complete (results : List SyncResult)
  | repoExists (repoName repoPath : String) (repoIndex : Nat) (mode : String)
  | next (m : InlineProgressModel)
  deriving DecidableEq, Repr

/-- One item of the GitHub-mode queue (part_001, syncNextGitHubRepo):
validate target directory and client, split owner/repo, stat the destination,
then clone, skip, refresh or prompt exactly as the source branches do. -/
def syncNextGitHubRepo (env : SyncEnv) (m : InlineProgressModel) : SyncStepMsg :=
  if m.targetDir = "" then
    .complete [⟨"sync", false, some .targetDirNotSet⟩]
  else if ¬ env.clientOk then
    .complete [⟨"sync", false, some .clientInitFailed⟩]
  else
    let fullName := m.repos.getD m.pendingRepoIdx ""
    let parts := goSplitSlash fullName
    if parts.length ≠ 2 then
      .next { m with
        results := m.results ++ [⟨fullName, false, some (.invalidRepoFormat fullName)⟩],
        pendingRepoIdx := m.pendingRepoIdx + 1,
        current := m.current + 1 }
    else
      let owner := parts.getD 0 ""
      let repoName := parts.getD 1 ""
      let repoPath := joinPath m.targetDir repoName
      if env.pathExists repoPath then
        if m.skipAll then
          .next { m with
            results := m.results ++ [⟨repoName, true, none⟩],
            pendingRepoIdx := m.pendingRepoIdx + 1,
            current := m.current + 1 }
        else if m.refreshAll then
          let e := env.refreshErrGitHub repoPath
          .next { m with
            results := m.results ++ [⟨repoName, e.isNone, e.map .adapter⟩],
            pendingRepoIdx := m.pendingRepoIdx + 1,
            current := m.current + 1 }
        else
          .repoExists repoName repoPath m.pendingRepoIdx "github"
      else
        let e := env.cloneErr owner repoName m.targetDir
        .next { m with
          results := m.results ++ [⟨repoName, e.isNone, e.map .adapter⟩],
          pendingRepoIdx := m.pendingRepoIdx + 1,
          current := m.current + 1 }

/-- One item of the local-mode queue (part_001, syncNextLocalRepo). -/
def syncNextLocalRepo (env : SyncEnv) (m : InlineProgressModel) : SyncStepMsg :=
  if m.targetDir = "" then
    .complete [⟨"sync", false, some .targetDirNotSet⟩]
  else
    let repoPath := m.repos.getD m.pendingRepoIdx ""
    let parts := goSplitSlash repoPath
    let repoName := if parts.length > 0 then parts.getLastD repoPath else repoPath
    let destPath := joinPath m.targetDir repoName
    if env.pathExists destPath then
      if m.skipAll then
        .next { m with
          results := m.results ++ [⟨repoName, true, none⟩],
          pendingRepoIdx := m.pendingRepoIdx + 1,
          current := m.current + 1 }
      else if m.refreshAll then
        let e := env.refreshErrLocal destPath
        .next { m with
          results := m.results ++ [⟨repoName, e.isNone, e.map .adapter⟩],
          pendingRepoIdx := m.pendingRepoIdx + 1,
          current := m.current + 1 }
      else
        .repoExists repoName destPath m.pendingRepoIdx "local"
    else
      let e := env.copyErr repoPath m.targetDir
      .next { m with
        results := m.results ++ [⟨repoName, e.isNone, e.map .adapter⟩],
        pendingRepoIdx := m.pendingRepoIdx + 1,
        current := m.current + 1 }

/-- One unrolling of syncNextRepo (part_001): completion check, then dispatch
on the queue mode. -/
def syncNextRepoStep (env : SyncEnv) (m : InlineProgressModel) : SyncStepMsg :=
  if m.pendingRepoIdx ≥ m.repos.length then .complete m.results
  else if m.mode = "github" then syncNextGitHubRepo env m
  else syncNextLocalRepo env m

/-- Terminal observation of a queue run: the queue either finishes with a
SyncCompleteMsg, suspends on a RepoExistsMsg prompt (retaining the unchanged
model), or the fuel ran out (never happens with fuel ≥ items remaining). -/
inductive RunOutcome where
  | complete (results : List SyncResult)
  | prompt (repoName repoPath : String) (repoIndex : Nat) (mode : String)
      (m : InlineProgressModel)
  | outOfFuel (m : InlineProgressModel)
  deriving DecidableEq, Repr

/-- Chained execution of syncNextRepo: the Go body recurses until a prompt or
completion; fuel bounds the recursion depth for Lean. -/
def runSync (env : SyncEnv) : Nat → InlineProgressModel → RunOutcome
  | 0, m => .outOfFuel m
  | fuel + 1, m =>
    match syncNextRepoStep env m with
    | .complete rs => .complete rs
    | .repoExists n p i md => .prompt n p i md m
    | .next m' => runSync env fuel m'

/-- User decisions offered by the repository-exists dialog
(internal/tui/messages.go, ExistsAction). -/
inductive ExistsAction where
  | skip
  | refresh
  | skipAllAction
  | refreshAllAction
  deriving DecidableEq, Repr

/-- Decision handling (part_001, handleRepoExistsResponse): set the sticky
flag for the two All actions, recover the repository name and destination
path from the item at the cursor, then record the decided outcome and advance
the cursor; the Go code finishes by issuing syncNextRepo, which the caller of
this function models with `runSync`. -/
def handleRepoExistsResponse (env : SyncEnv) (m : InlineProgressModel)
    (action : ExistsAction) : InlineProgressModel :=
  let m :=
    match action with
    | .skipAllAction => { m with skipAll := true }
    | .refreshAllAction => { m with refreshAll := true }
    | _ => m
  let np : String × String :=
    if m.mode = "github" then
      let fullName := m.repos.getD m.pendingRepoIdx ""
      let parts := goSplitSlash fullName
      if parts.length = 2 then
        (parts.getD 1 "", joinPath m.targetDir (parts.getD 1 ""))
      else ("", "")
    else
      let sourcePath := m.repos.getD m.pendingRepoIdx ""
      let parts := goSplitSlash sourcePath
      if parts.length > 0 then
        (parts.getLastD "", joinPath m.targetDir (parts.getLastD ""))
      else ("", "")
  let repoName := np.1
  let repoPath := np.2
  match action with
  | .skip | .skipAllAction =>
    { m with
      results := m.results ++ [⟨repoName, true, none⟩],
      pendingRepoIdx := m.pendingRepoIdx + 1,
      current := m.current + 1 }
  | .refresh | .refreshAllAction =>
    let e : Option GoErr :=
      if m.mode = "github" then
        if env.clientOk then (env.refreshErrGitHub repoPath).map .adapter
        else some .clientInitFailed
      else (env.refreshErrLocal repoPath).map .adapter
    { m with
      results := m.results ++ [⟨repoName, e.isNone, e⟩],
      pendingRepoIdx := m.pendingRepoIdx + 1,
      current := m.current + 1 }

end Tui

namespace Template

/-- Conflict decisions of the template sync engine
(internal/template/sync.go, ConflictAction). -/
inductive ConflictAction where
  | overwrite
  | skip
  | overwriteAll
  | skipAll
  deriving DecidableEq, Repr

/-- Per-file sync outcome (internal/template/sync.go, SyncResult). -/
structure SyncResult where
  filePath : String
  targetRepo : String
  success : Bool
  skipped : Bool
  error : Option String
  deriving DecidableEq, Repr

/-- Sticky-flag state of the sync engine (internal/template/sync.go,
SyncEngine): the two batch conflict flags; the source/client fields configure
the adapter side and live in the environment here. -/
structure Engine where
  overwriteAll : Bool
  skipAll : Bool
  deriving DecidableEq, Repr

/-- Environment for the engine's filesystem and network effects:
conflictCheck is CheckConflict (stat of the destination, which can itself
error), syncErr is the outcome of SyncFile / CopyLocalFile (none = written
successfully). -/
structure TEnv where
  conflictCheck : String → String → Except String Bool
  syncErr : String → String → Option String

/-- Progress record pushed to the progress callback
(internal/template/sync.go, SyncProgress). -/
structure SyncProgress where
  current : Nat
  total : Nat
  currentFile : String
  targetRepo : String
  deriving DecidableEq, Repr

/-- Accumulated observable state of one SyncFiles run: engine flags, the
running counter, results in order, the progress records pushed so far, and
the (file, target) pairs for which the conflict callback was invoked. -/
structure SFState where
  engine : Engine
  current : Nat
  results : List SyncResult
  progress : List SyncProgress
  asks : List (String × String)
  deriving DecidableEq, Repr

/-- Outcome of actually writing one file (internal/template/sync.go,
SyncFile / CopyLocalFile as observed by the SyncFiles loop): error recorded,
or success. -/
def syncWrite (env : TEnv) (file target : String) : SyncResult :=
  match env.syncErr file target with
  | some e => ⟨file, target, false, false, some e⟩
  | none => ⟨file, target, true, false, none⟩

/-- One iteration of the SyncFiles double loop (internal/template/sync.go,
lines 228-304): increment the counter, push a progress record, check for a
conflict, resolve it by the sticky flags or the conflict callback (the
callback is always supplied by executeTemplateSync, so the nil-callback
default branch of the source is dead here), then write the file unless the
resolved action is skip. -/
def syncFilesBody (env : TEnv) (cfn : String → String → ConflictAction)
    (total : Nat) (target file : String) (st : SFState) : SFState :=
  let current := st.current + 1
  let prog := st.progress ++ [⟨current, total, file, target⟩]
  match env.conflictCheck file target with
  | .error e =>
    { st with
      current := current
      progress := prog
      results := st.results ++ [⟨file, target, false, false, some e⟩] }
  | .ok hasConflict =>
    if hasConflict then
      if st.engine.overwriteAll then
        { st with
          current := current
          progress := prog
          results := st.results ++ [syncWrite env file target] }
      else if st.engine.skipAll then
        { st with
          current := current
          progress := prog
          results := st.results ++ [⟨file, target, true, true, none⟩] }
      else
        let asks := st.asks ++ [(file, target)]
        match cfn file target with
        | .overwriteAll =>
          { st with
            engine := { st.engine with overwriteAll := true }
            current := current
            progress := prog
            asks := asks
            results := st.results ++ [syncWrite env file target] }
        | .overwrite =>
          { st with
            current := current
            progress := prog
            asks := asks
            results := st.results ++ [syncWrite env file target] }
        | .skipAll =>
          { st with
            engine := { st.engine with skipAll := true }
            current := current
            progress := prog
            asks := asks
            results := st.results ++ [⟨file, target, true, true, none⟩] }
        | .skip =>
          { st with
            current := current
            progress := prog
            asks := asks
            results := st.results ++ [⟨file, target, true, true, none⟩] }
    else
      { st with
        current := current
        progress := prog
        results := st.results ++ [syncWrite env file target] }

/-- Inner loop of SyncFiles over the selected files, for one target. -/
def syncFilesInner (env : TEnv) (cfn : String → String → ConflictAction)
    (total : Nat) (target : String) (st : SFState) (files : List String) :
    SFState :=
  files.foldl (fun st file => syncFilesBody env cfn total target file st) st

/-- Outer loop of SyncFiles over the selected targets. -/
def syncFilesLoop (env : TEnv) (cfn : String → String → ConflictAction)
    (total : Nat) (files : List String) (st : SFState)
    (targets : List String) : SFState :=
  targets.foldl (fun st target => syncFilesInner env cfn total target st files)
    st

/-- SyncEngine.SyncFiles (internal/template/sync.go, lines 218-308): run the
double loop starting from the given engine flags with the counter at zero and
empty accumulators; total = len(files) * len(targets). -/
def syncFiles (env : TEnv) (e : Engine) (files targets : List String)
    (cfn : String → String → ConflictAction) : SFState :=
  syncFilesLoop env cfn (files.length * targets.length) files
    ⟨e, 0, [], [], []⟩ targets

/-- GetSyncSummary (internal/template/sync.go, lines 311-322): count
(synced, skipped, errors) over the result list, testing error first, then
skipped, then success. -/
def getSyncSummary (results : List SyncResult) : Nat × Nat × Nat :=
  results.foldl
    (fun acc r =>
      if r.error.isSome then (acc.1, acc.2.1, acc.2.2 + 1)
      else if r.skipped then (acc.1, acc.2.1 + 1, acc.2.2)
      else if r.success then (acc.1 + 1, acc.2.1, acc.2.2)
      else acc)
    (0, 0, 0)

end Template

namespace Tui

/-- Node of the template file tree (part_000, TemplateTreeNode): path, name,
directory flag, blob SHA, size, UI expansion flag, selection flag and owned
children. -/
inductive TemplateTreeNode where
  | node (path name : String) (isDir : Bool) (sha : String) (size : Int)
      (expanded selected : Bool) (children : List TemplateTreeNode)

/-- Path of a tree node. -/
def TemplateTreeNode.path : TemplateTreeNode → String
  | .node p _ _ _ _ _ _ _ => p

/-- Directory flag of a tree node. -/
def TemplateTreeNode.isDirFlag : TemplateTreeNode → Bool
  | .node _ _ d _ _ _ _ _ => d

/-- Expansion flag of a tree node. -/
def TemplateTreeNode.expandedFlag : TemplateTreeNode → Bool
  | .node _ _ _ _ _ e _ _ => e

/-- Selection flag of a tree node. -/
def TemplateTreeNode.selectedFlag : TemplateTreeNode → Bool
  | .node _ _ _ _ _ _ s _ => s

/-- Children of a tree node. -/
def TemplateTreeNode.childrenOf : TemplateTreeNode → List TemplateTreeNode
  | .node _ _ _ _ _ _ _ cs => cs

mutual

/-- setSelectRecursive (part_014, lines 586-591): set the selection flag of a
node and of every descendant. -/
def setSelectRecursive : TemplateTreeNode → Bool → TemplateTreeNode
  | .node p nm d sha sz ex _ cs, b =>
    .node p nm d sha sz ex b (setSelectRecursiveList cs b)

/-- List companion of setSelectRecursive. -/
def setSelectRecursiveList : List TemplateTreeNode → Bool → List TemplateTreeNode
  | [], _ => []
  | c :: cs, b => setSelectRecursive c b :: setSelectRecursiveList cs b

end

/-- toggleSelect (part_014, lines 580-583): flip the node's own selection and
write the new state through the whole subtree. -/
def toggleSelect (n : TemplateTreeNode) : TemplateTreeNode :=
  setSelectRecursive n (!n.selectedFlag)

mutual

/-- collectSelectedPaths (part_014, lines 631-640): collect the paths of
selected non-directory nodes, node before children. -/
def collectSelectedPaths : TemplateTreeNode → List String
  | .node p _ d _ _ _ s cs =>
    (if !d && s then [p] else []) ++ collectSelectedPathsList cs

/-- List companion of collectSelectedPaths. -/
def collectSelectedPathsList : List TemplateTreeNode → List String
  | [] => []
  | c :: cs => collectSelectedPaths c ++ collectSelectedPathsList cs

end

mutual

/-- All file-leaf (non-directory) descendant paths of a node, in the same
preorder as collectSelectedPaths; this is the reference set the specification
compares selections against. -/
def fileLeaves : TemplateTreeNode → List String
  | .node p _ d _ _ _ _ cs => (if !d then [p] else []) ++ fileLeavesList cs

/-- List companion of fileLeaves. -/
def fileLeavesList : List TemplateTreeNode → List String
  | [] => []
  | c :: cs => fileLeaves c ++ fileLeavesList cs

end

mutual

/-- Preorder list of every selection flag in a tree, used to state that an
operation touches no node's selection. -/
def selectedFlags : TemplateTreeNode → List Bool
  | .node _ _ _ _ _ _ s cs => s :: selectedFlagsList cs

/-- List companion of selectedFlags. -/
def selectedFlagsList : List TemplateTreeNode → List Bool
  | [] => []
  | c :: cs => selectedFlags c ++ selectedFlagsList cs

end

/-- The single-node expansion write of the tree Update handler (part_014,
right/left keys set node.Expanded on the cursor node only). -/
def setExpanded : TemplateTreeNode → Bool → TemplateTreeNode
  | .node p nm d sha sz _ s cs, b => .node p nm d sha sz b s cs

mutual

/-- expandAll (part_014, lines 604-611): set Expanded on every directory. -/
def expandAll : TemplateTreeNode → TemplateTreeNode
  | .node p nm d sha sz ex s cs =>
    if d then .node p nm d sha sz true s (expandAllList cs)
    else .node p nm d sha sz ex s cs

/-- List companion of expandAll. -/
def expandAllList : List TemplateTreeNode → List TemplateTreeNode
  | [] => []
  | c :: cs => expandAll c :: expandAllList cs

end

mutual

/-- collapseAll (part_014, lines 614-621): clear Expanded on directories,
but only below a directory with a non-empty path; since the root has the
empty path, the source function never descends from the root. -/
def collapseAll : TemplateTreeNode → TemplateTreeNode
  | .node p nm d sha sz ex s cs =>
    if d && p != "" then .node p nm d sha sz false s (collapseAllList cs)
    else .node p nm d sha sz ex s cs

/-- List companion of collapseAll. -/
def collapseAllList : List TemplateTreeNode → List TemplateTreeNode
  | [] => []
  | c :: cs => collapseAll c :: collapseAllList cs

end

mutual

/-- flattenNode (part_014, lines 458-469): preorder list of the visible node
paths; a node is listed when its path is non-empty, and its children are
visited when it is a directory that is the root or expanded. -/
def visiblePaths : TemplateTreeNode → List String
  | .node p _ d _ _ ex _ cs =>
    (if p != "" then [p] else []) ++
      (if d && (p == "" || ex) then visiblePathsList cs else [])

/-- List companion of visiblePaths. -/
def visiblePathsList : List TemplateTreeNode → List String
  | [] => []
  | c :: cs => visiblePaths c ++ visiblePathsList cs

end

mutual

/-- Look up the node with the given path (node paths are unique keys in the
trees the repository builds: GitHub tree entry paths and local relative
paths). -/
def findByPath : TemplateTreeNode → String → Option TemplateTreeNode
  | .node p nm d sha sz ex s cs, q =>
    if p = q then some (.node p nm d sha sz ex s cs)
    else findByPathList cs q

/-- List companion of findByPath. -/
def findByPathList : List TemplateTreeNode → String → Option TemplateTreeNode
  | [], _ => none
  | c :: cs, q =>
    match findByPath c q with
    | some r => some r
    | none => findByPathList cs q

end

mutual

/-- Apply a transformation to the node with the given path: the functional
rendering of the Go code mutating a node through the pointer held in
flatNodes. -/
def modifyByPath :
    TemplateTreeNode → String → (TemplateTreeNode → TemplateTreeNode) →
      TemplateTreeNode
  | .node p nm d sha sz ex s cs, q, f =>
    if p = q then f (.node p nm d sha sz ex s cs)
    else .node p nm d sha sz ex s (modifyByPathList cs q f)

/-- List companion of modifyByPath. -/
def modifyByPathList :
    List TemplateTreeNode → String → (TemplateTreeNode → TemplateTreeNode) →
      List TemplateTreeNode
  | [], _, _ => []
  | c :: cs, q, f => modifyByPath c q f :: modifyByPathList cs q f

end

/-- Tree browser model (part_014, TemplateTreeModel) restricted to workflow
state: the owned tree and the cursor into the visible-node list; the viewport
offset and dimensions are rendering-only. -/
structure TemplateTreeModel where
  root : TemplateTreeNode
  cursor : Nat

/-- GetSelectedPaths of the tree model (part_014, lines 624-628). -/
def TemplateTreeModel.getSelectedPaths (m : TemplateTreeModel) : List String :=
  collectSelectedPaths m.root

/-- GetSelectedCount (part_014, lines 643-645). -/
def TemplateTreeModel.getSelectedCount (m : TemplateTreeModel) : Nat :=
  m.getSelectedPaths.length

/-- Key handling of the tree browser Update (part_014, lines 480-553),
omitting the viewport adjustment which only scrolls the rendering. -/
def TemplateTreeModel.updateKey (m : TemplateTreeModel) (key : String) :
    TemplateTreeModel :=
  let flat := visiblePaths m.root
  if key = "up" ∨ key = "k" then
    if m.cursor > 0 then { m with cursor := m.cursor - 1 } else m
  else if key = "down" ∨ key = "j" then
    if m.cursor + 1 < flat.length then { m with cursor := m.cursor + 1 } else m
  else if key = "right" ∨ key = "l" then
    if m.cursor < flat.length then
      let p := flat.getD m.cursor ""
      match findByPath m.root p with
      | some nd =>
        if nd.isDirFlag && !nd.expandedFlag then
          { m with root := modifyByPath m.root p (fun n => setExpanded n true) }
        else m
      | none => m
    else m
  else if key = "left" ∨ key = "h" then
    if m.cursor < flat.length then
      let p := flat.getD m.cursor ""
      match findByPath m.root p with
      | some nd =>
        if nd.isDirFlag && nd.expandedFlag then
          { m with root := modifyByPath m.root p (fun n => setExpanded n false) }
        else m
      | none => m
    else m
  else if key = " " then
    if m.cursor < flat.length then
      let p := flat.getD m.cursor ""
      { m with root := modifyByPath m.root p toggleSelect }
    else m
  else if key = "a" then { m with root := setSelectRecursive m.root true }
  else if key = "n" then { m with root := setSelectRecursive m.root false }
  else if key = "e" then { m with root := expandAll m.root }
  else if key = "c" then { m with root := collapseAll m.root }
  else m

/-- Steps of the template sync wizard (internal/tui/template_state.go,
TemplateWorkflowStep), an integer enumeration in the source. -/
inductive TemplateWorkflowStep where
  | selectTemplate
  | browseTree
  | selectTargets
  | syncing
  | complete
  deriving DecidableEq, Repr

/-- Integer value of a step, matching the iota order of the source constants. -/
def TemplateWorkflowStep.idx : TemplateWorkflowStep → Nat
  | .selectTemplate => 0
  | .browseTree => 1
  | .selectTargets => 2
  | .syncing => 3
  | .complete => 4

/-- Predecessor step, the decrement performed by PrevStep when the guard
Step > StepSelectTemplate holds. -/
def TemplateWorkflowStep.prev : TemplateWorkflowStep → TemplateWorkflowStep
  | .selectTemplate => .selectTemplate
  | .browseTree => .selectTemplate
  | .selectTargets => .browseTree
  | .syncing => .selectTargets
  | .complete => .syncing

/-- Workflow state of the wizard (internal/tui/template_state.go,
TemplateSyncState); the nested SyncProgress display record is
rendering-facing and not needed by the claims. -/
structure TemplateSyncState where
  step : TemplateWorkflowStep
  isLocal : Bool
  templateOwner : String
  templateRepo : String
  templateBranch : String
  localTemplatePath : String
  treeRoot : Option TemplateTreeNode
  selectedPaths : List String
  targetRepos : List String
  overwriteAll : Bool
  skipAll : Bool
  syncedCount : Nat
  skippedCount : Nat
  errorCount : Nat

/-- NewTemplateSyncState (template_state.go, lines 103-109). -/
def newTemplateSyncState : TemplateSyncState :=
  { step := .selectTemplate
    isLocal := false
    templateOwner := ""
    templateRepo := ""
    templateBranch := ""
    localTemplatePath := ""
    treeRoot := none
    selectedPaths := []
    targetRepos := []
    overwriteAll := false
    skipAll := false
    syncedCount := 0
    skippedCount := 0
    errorCount := 0 }

/-- Reset (template_state.go, lines 112-127): clear every field and return to
the first step. -/
def TemplateSyncState.reset (s : TemplateSyncState) : TemplateSyncState :=
  { s with
    step := .selectTemplate
    isLocal := false
    templateOwner := ""
    templateRepo := ""
    templateBranch := ""
    localTemplatePath := ""
    treeRoot := none
    selectedPaths := []
    targetRepos := []
    overwriteAll := false
    skipAll := false
    syncedCount := 0
    skippedCount := 0
    errorCount := 0 }

/-- SetTemplate (template_state.go, lines 130-136). -/
def TemplateSyncState.setTemplate (s : TemplateSyncState)
    (owner repo branch : String) : TemplateSyncState :=
  { s with
    isLocal := false
    templateOwner := owner
    templateRepo := repo
    templateBranch := branch
    localTemplatePath := "" }

/-- SetLocalTemplate (template_state.go, lines 139-145). -/
def TemplateSyncState.setLocalTemplate (s : TemplateSyncState)
    (path : String) : TemplateSyncState :=
  { s with
    isLocal := true
    localTemplatePath := path
    templateOwner := ""
    templateRepo := ""
    templateBranch := "" }

/-- PrevStep (template_state.go, lines 215-219). -/
def TemplateSyncState.prevStep (s : TemplateSyncState) : TemplateSyncState :=
  if s.step.idx > 0 then { s with step := s.step.prev } else s

/-- normalizePath (template_state.go, lines 185-187): strings.TrimSuffix of
one trailing slash, expressed over the character list so that it computes by
kernel reduction. -/
def normalizePath (path : String) : String :=
  if path.toList.getLast? = some (Char.ofNat 47) then
    String.mk path.toList.dropLast
  else path

/-- TemplateRepoSelectedMsg (part_000): a submitted template selection,
either a GitHub owner/repo or a local path. -/
structure TemplateRepoSelectedMsg where
  owner : String
  repo : String
  localPath : String
  isLocal : Bool
  deriving DecidableEq, Repr

/-- handleTemplateRepoSelected (internal/tui/model.go, lines 752-766) as it
acts on the workflow state: a local selection goes through SetLocalTemplate,
a GitHub selection writes TemplateOwner and TemplateRepo directly (the
selector loading flag and the issued tree-load command do not touch the
source-description fields). -/
def handleTemplateRepoSelected (s : TemplateSyncState)
    (msg : TemplateRepoSelectedMsg) : TemplateSyncState :=
  if msg.isLocal then s.setLocalTemplate msg.localPath
  else { s with templateOwner := msg.owner, templateRepo := msg.repo }

/-- One candidate target repository (part_012, TemplateTargetRepo). -/
structure TemplateTargetRepo where
  path : String
  name : String
  isSelected : Bool
  isDisabled : Bool
  deriving DecidableEq, Repr

/-- Target selector model (part_012, TemplateTargetsModel) restricted to
workflow state; viewport offset and dimensions are rendering-only. -/
structure TemplateTargetsModel where
  repos : List TemplateTargetRepo
  cursor : Nat
  filter : String
  excludePath : String
  deriving DecidableEq, Repr

/-- Model of Go filepath.Base for the non-empty slash-separated paths the
selector displays: strip one trailing slash, then take the last component. -/
def baseName (path : String) : String :=
  let p := normalizePath path
  (goSplitSlash p).getLastD p

/-- SetRepos (part_012, lines 70-80): rebuild the candidate list, disabling a
candidate that equals the stored exclude path. -/
def TemplateTargetsModel.setRepos (m : TemplateTargetsModel)
    (paths : List String) : TemplateTargetsModel :=
  { m with
    repos := paths.map fun path =>
      { path := path
        name := baseName path
        isSelected := false
        isDisabled :=
          (m.excludePath != "") &&
            (normalizePath path == normalizePath m.excludePath) } }

/-- SetExcludePath (part_012, lines 83-93): store the template-source path,
recompute the disabled flag of every candidate and deselect any candidate
that just became disabled. -/
def TemplateTargetsModel.setExcludePath (m : TemplateTargetsModel)
    (path : String) : TemplateTargetsModel :=
  { m with
    excludePath := path
    repos := m.repos.map fun r =>
      let disabled := (path != "") && (normalizePath r.path == normalizePath path)
      { r with
        isDisabled := disabled
        isSelected := if disabled then false else r.isSelected } }

/-- A case-insensitive substring test modelling strings.Contains over the
lowered name and path (part_012, getFilteredRepos). -/
def strContains (s sub : String) : Bool :=
  (List.range (s.length + 1)).any fun i => (s.drop i).take sub.length == sub

/-- getFilteredRepos (part_012, lines 112-130): indices of the candidates
matching the filter. -/
def TemplateTargetsModel.getFilteredRepos (m : TemplateTargetsModel) :
    List Nat :=
  if m.filter = "" then List.range m.repos.length
  else
    (List.range m.repos.length).filter fun i =>
      let r := m.repos.getD i ⟨"", "", false, false⟩
      strContains r.name.toLower m.filter.toLower ||
        strContains r.path.toLower m.filter.toLower

/-- GetSelectedPaths (part_012, lines 228-236): paths of the selected,
non-disabled candidates in order. -/
def TemplateTargetsModel.getSelectedPaths (m : TemplateTargetsModel) :
    List String :=
  (m.repos.filter fun r => r.isSelected && !r.isDisabled).map fun r => r.path

/-- HasSelections (part_012, lines 244-246). -/
def TemplateTargetsModel.hasSelections (m : TemplateTargetsModel) : Bool :=
  m.getSelectedPaths.length > 0

/-- Key handling of the target selector Update (part_012, lines 133-211),
omitting the viewport adjustment; a single printable character key stands for
a tea.KeyRunes message appended to the filter. -/
def TemplateTargetsModel.updateKey (m : TemplateTargetsModel) (key : String) :
    TemplateTargetsModel :=
  if key = "up" ∨ key = "k" then
    if m.cursor > 0 then { m with cursor := m.cursor - 1 } else m
  else if key = "down" ∨ key = "j" then
    let filtered := m.getFilteredRepos
    if m.cursor + 1 < filtered.length then { m with cursor := m.cursor + 1 }
    else m
  else if key = " " then
    let filtered := m.getFilteredRepos
    if m.cursor < filtered.length then
      let idx := filtered.getD m.cursor 0
      { m with
        repos := m.repos.mapIdx fun i r =>
          if i = idx && !r.isDisabled then { r with isSelected := !r.isSelected }
          else r }
    else m
  else if key = "a" then
    { m with
      repos := m.repos.map fun r =>
        if !r.isDisabled then { r with isSelected := true } else r }
  else if key = "n" then
    { m with repos := m.repos.map fun r => { r with isSelected := false } }
  else if key = "backspace" then
    if m.filter.length > 0 then
      { m with filter := m.filter.dropRight 1, cursor := 0 }
    else m
  else if key = "esc" then
    if m.filter ≠ "" then { m with filter := "", cursor := 0 } else m
  else if key.length = 1 then { m with filter := m.filter ++ key, cursor := 0 }
  else m

/-- Inline list errors relevant to the mode state machine; model.go line 374
constructs the no-organizations error shown by the list. -/
inductive LoadErr where
  | noOrgsFound
  deriving DecidableEq, Repr

/-- Commands issued by the SwitchModeMsg handler; they resolve asynchronously
and are observed here only by name. -/
inductive Cmd where
  | loadRepositories
  | loadLocalReposForTemplateTargets
  deriving DecidableEq, Repr

/-- The slice of the main model (internal/tui/model.go, Model) that the
SwitchModeMsg handler reads and writes: active mode, owner and username,
known organizations, the list's loading and error state, the wizard state and
the selector visibility. -/
structure MainModel where
  mode : ViewMode
  owner : String
  username : String
  orgs : List String
  listLoading : Bool
  listError : Option LoadErr
  templateState : TemplateSyncState
  templateSelectorVisible : Bool

/-- The SwitchModeMsg branch of Model.Update (internal/tui/model.go, lines
360-399): the handler first assigns the requested mode and sets the list
loading, then branches per mode; for Organization with no known
organizations it sets the inline error, clears loading (SetError itself also
clears loading) and returns no command; entering Template resets the wizard
state and the selector (selector Reset does not change its visibility) and
batches the two load commands. -/
def handleSwitchMode (m : MainModel) (target : ViewMode) :
    MainModel × List Cmd :=
  let m := { m with mode := target, listLoading := true }
  match target with
  | .personal => ({ m with owner := m.username }, [.loadRepositories])
  | .organization =>
    if m.orgs.length = 0 then
      ({ m with listError := some .noOrgsFound, listLoading := false }, [])
    else
      ({ m with owner := m.orgs.headI }, [.loadRepositories])
  | .localMode => (m, [.loadRepositories])
  | .template =>
    ({ m with templateState := m.templateState.reset },
      [.loadRepositories, .loadLocalReposForTemplateTargets])

/-- The slice of the main model that updateTemplateMode reads and writes. -/
structure TplModel where
  quitting : Bool
  showHelp : Bool
  showSettings : Bool
  templateSyncing : Bool
  selectorVisible : Bool
  templateState : TemplateSyncState
  templateTree : Option TemplateTreeModel
  templateTargets : TemplateTargetsModel

/-- startTemplateSync (internal/tui/model.go, lines 974-996) as it acts on
the workflow state: refuse when either selection list is empty, otherwise
mark syncing and move the wizard to the Syncing step (engine construction
and the launched background job are observed through the Template engine
embedding). -/
def startTemplateSync (m : TplModel) : TplModel :=
  if m.templateState.selectedPaths.length = 0 ∨
      m.templateState.targetRepos.length = 0 then m
  else
    { m with
      templateSyncing := true
      templateState := { m.templateState with step := .syncing } }

/-- Key handling of updateTemplateMode (internal/tui/model.go, lines
626-729): global keys first (quit, help, settings when not syncing, escape
hiding the selector or stepping back), then the per-step behaviour; in the
Complete step any remaining key resets the wizard state and the selector
(selector Reset does not change its visibility). -/
def updateTemplateModeKey (m : TplModel) (key : String) : TplModel :=
  if key = "ctrl+c" ∨ key = "q" then { m with quitting := true }
  else if key = "?" then { m with showHelp := !m.showHelp }
  else if key = "c" ∧ ¬ m.templateSyncing then { m with showSettings := true }
  else if key = "esc" ∧ m.selectorVisible then { m with selectorVisible := false }
  else if key = "esc" ∧ m.templateState.step.idx > 0 then
    { m with templateState := m.templateState.prevStep }
  else
    match m.templateState.step with
    | .selectTemplate =>
      if (key = "s" ∨ key = "enter") ∧ ¬ m.selectorVisible then
        { m with selectorVisible := true }
      else m
    | .browseTree =>
      match m.templateTree with
      | none => m
      | some tr =>
        if key = "enter" ∧ tr.getSelectedCount > 0 then
          let st :=
            { m.templateState with
              selectedPaths := tr.getSelectedPaths
              step := .selectTargets }
          let tgt :=
            if st.isLocal then
              m.templateTargets.setExcludePath st.localTemplatePath
            else m.templateTargets
          { m with templateState := st, templateTargets := tgt }
        else { m with templateTree := some (tr.updateKey key) }
    | .selectTargets =>
      if key = "enter" ∧ m.templateTargets.hasSelections then
        startTemplateSync
          { m with
            templateState :=
              { m.templateState with
                targetRepos := m.templateTargets.getSelectedPaths } }
      else { m with templateTargets := m.templateTargets.updateKey key }
    | .syncing => m
    | .complete => { m with templateState := m.templateState.reset }

end Tui

section Claims

open Tui Template

/-- Concrete main model used to exhibit the behaviour of the mode switch:
Personal mode, no known organizations. -/
def c1Model : MainModel :=
  { mode := .personal
    owner := "alice"
    username := "alice"
    orgs := []
    listLoading := false
    listError := none
    templateState := Tui.newTemplateSyncState
    templateSelectorVisible := false }

/-- C1, counterexample: with no known organizations, handling a switch-mode
event targeting Organization does surface an inline error and issues no load
command, but the active mode is assigned before the organization check and
therefore changes from Personal to Organization, contradicting the claim that
the mode is left unchanged. -/
theorem switchMode_orgEmpty_mode_changes :
    c1Model.mode = ViewMode.personal ∧
    (handleSwitchMode c1Model .organization).1.mode = ViewMode.organization ∧
    (handleSwitchMode c1Model .organization).1.listError = some .noOrgsFound ∧
    (handleSwitchMode c1Model .organization).2 = [] := by
  refine ⟨rfl, rfl, rfl, rfl⟩

/-- C1, amended: for every model whose known-organizations list is empty,
handling a switch-mode event targeting Organization mode sets the active mode
to Organization, surfaces the inline no-organizations error with the list not
loading, triggers no repository load command, and leaves the owner and the
wizard state untouched. -/
theorem switchMode_orgEmpty_spec (m : MainModel) (h : m.orgs = []) :
    (handleSwitchMode m .organization).1.mode = ViewMode.organization ∧
    (handleSwitchMode m .organization).1.listError = some .noOrgsFound ∧
    (handleSwitchMode m .organization).1.listLoading = false ∧
    (handleSwitchMode m .organization).2 = [] ∧
    (handleSwitchMode m .organization).1.owner = m.owner ∧
    (handleSwitchMode m .organization).1.templateState = m.templateState := by
  simp [handleSwitchMode, h]

/-- Witness for the amended C1 theorem at the concrete model. -/
theorem switchMode_orgEmpty_spec_witness :
    (handleSwitchMode c1Model .organization).1.mode = ViewMode.organization ∧
    (handleSwitchMode c1Model .organization).1.listError = some .noOrgsFound ∧
    (handleSwitchMode c1Model .organization).1.listLoading = false ∧
    (handleSwitchMode c1Model .organization).2 = [] ∧
    (handleSwitchMode c1Model .organization).1.owner = c1Model.owner ∧
    (handleSwitchMode c1Model .organization).1.templateState
      = c1Model.templateState :=
  switchMode_orgEmpty_spec c1Model rfl

/-- C6: evaluating the template-selection handler on the session that first
selects the local template /home/user/tpl and then, without a reset, selects
the GitHub template alice/proj, leaves both source descriptions populated at
once: the GitHub branch of handleTemplateRepoSelected writes TemplateOwner
and TemplateRepo directly instead of going through SetTemplate, so the local
path (and the IsLocal flag) survive. -/
theorem templateSource_both_populated :
    (Tui.handleTemplateRepoSelected
        (Tui.handleTemplateRepoSelected Tui.newTemplateSyncState
          ⟨"", "", "/home/user/tpl", true⟩)
        ⟨"alice", "proj", "", false⟩).templateOwner = "alice" ∧
    (Tui.handleTemplateRepoSelected
        (Tui.handleTemplateRepoSelected Tui.newTemplateSyncState
          ⟨"", "", "/home/user/tpl", true⟩)
        ⟨"alice", "proj", "", false⟩).localTemplatePath = "/home/user/tpl" ∧
    (Tui.handleTemplateRepoSelected
        (Tui.handleTemplateRepoSelected Tui.newTemplateSyncState
          ⟨"", "", "/home/user/tpl", true⟩)
        ⟨"alice", "proj", "", false⟩).isLocal = true := by
  refine ⟨rfl, rfl, rfl⟩

/-- Concrete wizard model in the Complete step with leftover selections and
sticky flags, used to exhibit the behaviour of key handling from Complete. -/
def c10Model : TplModel :=
  { quitting := false
    showHelp := false
    showSettings := false
    templateSyncing := false
    selectorVisible := false
    templateState :=
      { Tui.newTemplateSyncState with
        step := .complete
        selectedPaths := ["README.md"]
        targetRepos := ["/repos/a"]
        overwriteAll := true
        skipAll := true }
    templateTree := none
    templateTargets := { repos := [], cursor := 0, filter := "", excludePath := "" } }

/-- C10, counterexample: from the Complete step the escape key does not
return the wizard to SelectTemplate; the global escape handler fires first
and steps the wizard back to Syncing, with the accumulated selections kept. -/
theorem completeStep_esc_goes_back :
    (updateTemplateModeKey c10Model "esc").templateState.step
        = TemplateWorkflowStep.syncing ∧
    (updateTemplateModeKey c10Model "esc").templateState.selectedPaths
        = ["README.md"] := by
  refine ⟨rfl, rfl⟩

/-- C10, amended: from the Complete step, every key press other than the
globally handled keys ctrl+c, q (quit), ? (help), c (settings) and esc
returns the wizard to SelectTemplate with a full reset: the selected file
paths and target repository lists become empty and both sticky conflict
flags are cleared, regardless of the prior state. -/
theorem completeStep_key_resets (m : TplModel) (key : String)
    (hstep : m.templateState.step = TemplateWorkflowStep.complete)
    (h1 : key ≠ "ctrl+c") (h2 : key ≠ "q") (h3 : key ≠ "?")
    (h4 : key ≠ "c") (h5 : key ≠ "esc") :
    (updateTemplateModeKey m key).templateState.step
        = TemplateWorkflowStep.selectTemplate ∧
    (updateTemplateModeKey m key).templateState.selectedPaths = [] ∧
    (updateTemplateModeKey m key).templateState.targetRepos = [] ∧
    (updateTemplateModeKey m key).templateState.overwriteAll = false ∧
    (updateTemplateModeKey m key).templateState.skipAll = false := by
  simp [updateTemplateModeKey, h1, h2, h3, h4, h5, hstep,
    TemplateSyncState.reset]

/-- Witness for the amended C10 theorem: the space key at the concrete
Complete-step model performs the full reset. -/
theorem completeStep_key_resets_witness :
    (updateTemplateModeKey c10Model " ").templateState.step
        = TemplateWorkflowStep.selectTemplate ∧
    (updateTemplateModeKey c10Model " ").templateState.selectedPaths = [] ∧
    (updateTemplateModeKey c10Model " ").templateState.targetRepos = [] ∧
    (updateTemplateModeKey c10Model " ").templateState.overwriteAll = false ∧
    (updateTemplateModeKey c10Model " ").templateState.skipAll = false :=
  completeStep_key_resets c10Model " " rfl (by decide) (by decide) (by decide)
    (by decide) (by decide)

mutual

/-- Selecting a whole subtree makes the collected selection exactly the
file leaves of the subtree. -/
theorem collect_setSelTrue :
    ∀ n : Tui.TemplateTreeNode,
      Tui.collectSelectedPaths (Tui.setSelectRecursive n true) = Tui.fileLeaves n
  | .node p nm d sha sz ex sf cs => by
    simp [Tui.setSelectRecursive, Tui.collectSelectedPaths, Tui.fileLeaves,
      collect_setSelTrue_list cs]

/-- List companion of collect_setSelTrue. -/
theorem collect_setSelTrue_list :
    ∀ l : List Tui.TemplateTreeNode,
      Tui.collectSelectedPathsList (Tui.setSelectRecursiveList l true)
        = Tui.fileLeavesList l
  | [] => rfl
  | c :: cs => by
    simp [Tui.setSelectRecursiveList, Tui.collectSelectedPathsList,
      Tui.fileLeavesList, collect_setSelTrue c, collect_setSelTrue_list cs]

end

mutual

/-- Deselecting a whole subtree empties the collected selection. -/
theorem collect_setSelFalse :
    ∀ n : Tui.TemplateTreeNode,
      Tui.collectSelectedPaths (Tui.setSelectRecursive n false) = []
  | .node p nm d sha sz ex sf cs => by
    simp [Tui.setSelectRecursive, Tui.collectSelectedPaths,
      collect_setSelFalse_list cs]

/-- List companion of collect_setSelFalse. -/
theorem collect_setSelFalse_list :
    ∀ l : List Tui.TemplateTreeNode,
      Tui.collectSelectedPathsList (Tui.setSelectRecursiveList l false) = []
  | [] => rfl
  | c :: cs => by
    simp [Tui.setSelectRecursiveList, Tui.collectSelectedPathsList,
      collect_setSelFalse c, collect_setSelFalse_list cs]

end

mutual

/-- expandAll leaves every selection flag unchanged. -/
theorem selFlags_expandAll :
    ∀ n : Tui.TemplateTreeNode,
      Tui.selectedFlags (Tui.expandAll n) = Tui.selectedFlags n
  | .node p nm d sha sz ex sf cs => by
    by_cases hd : d = true
    · simp [Tui.expandAll, hd, Tui.selectedFlags, selFlags_expandAll_list cs]
    · simp [Tui.expandAll, hd, Tui.selectedFlags]

/-- List companion of selFlags_expandAll. -/
theorem selFlags_expandAll_list :
    ∀ l : List Tui.TemplateTreeNode,
      Tui.selectedFlagsList (Tui.expandAllList l) = Tui.selectedFlagsList l
  | [] => rfl
  | c :: cs => by
    simp [Tui.expandAllList, Tui.selectedFlagsList, selFlags_expandAll c,
      selFlags_expandAll_list cs]

end

mutual

/-- collapseAll leaves every selection flag unchanged. -/
theorem selFlags_collapseAll :
    ∀ n : Tui.TemplateTreeNode,
      Tui.selectedFlags (Tui.collapseAll n) = Tui.selectedFlags n
  | .node p nm d sha sz ex sf cs => by
    by_cases hd : (d && p != "") = true
    · simp [Tui.collapseAll, hd, Tui.selectedFlags, selFlags_collapseAll_list cs]
    · simp [Tui.collapseAll, hd, Tui.selectedFlags]

/-- List companion of selFlags_collapseAll. -/
theorem selFlags_collapseAll_list :
    ∀ l : List Tui.TemplateTreeNode,
      Tui.selectedFlagsList (Tui.collapseAllList l) = Tui.selectedFlagsList l
  | [] => rfl
  | c :: cs => by
    simp [Tui.collapseAllList, Tui.selectedFlagsList, selFlags_collapseAll c,
      selFlags_collapseAll_list cs]

end

/-- The single-node expansion write leaves every selection flag unchanged. -/
theorem selFlags_setExpanded (n : Tui.TemplateTreeNode) (b : Bool) :
    Tui.selectedFlags (Tui.setExpanded n b) = Tui.selectedFlags n := by
  cases n with
  | node p nm d sha sz ex sf cs => rfl

mutual

/-- Expanding or collapsing the node at any path leaves every selection flag
unchanged. -/
theorem selFlags_modifyExpanded :
    ∀ (n : Tui.TemplateTreeNode) (q : String) (b : Bool),
      Tui.selectedFlags (Tui.modifyByPath n q (fun x => Tui.setExpanded x b))
        = Tui.selectedFlags n
  | .node p nm d sha sz ex sf cs, q, b => by
    by_cases hp : p = q
    · simp [Tui.modifyByPath, hp, Tui.setExpanded, Tui.selectedFlags]
    · simp [Tui.modifyByPath, hp, Tui.selectedFlags,
        selFlags_modifyExpanded_list cs q b]

/-- List companion of selFlags_modifyExpanded. -/
theorem selFlags_modifyExpanded_list :
    ∀ (l : List Tui.TemplateTreeNode) (q : String) (b : Bool),
      Tui.selectedFlagsList
          (Tui.modifyByPathList l q (fun x => Tui.setExpanded x b))
        = Tui.selectedFlagsList l
  | [], _, _ => rfl
  | c :: cs, q, b => by
    simp [Tui.modifyByPathList, Tui.selectedFlagsList,
      selFlags_modifyExpanded c q b, selFlags_modifyExpanded_list cs q b]

end

/-- C8: toggling selection on an unselected node selects the whole subtree,
so the selected file paths collected from it are exactly its file-leaf
descendants; toggling a selected node clears the subtree, collecting nothing;
and the expansion operations (the single-node Expanded write of the
right/left keys, applied at any path, and expandAll / collapseAll) change no
node's selection flag. -/
theorem treeToggle_spec (n : Tui.TemplateTreeNode) (b : Bool) :
    (n.selectedFlag = false →
      Tui.collectSelectedPaths (Tui.toggleSelect n) = Tui.fileLeaves n) ∧
    (n.selectedFlag = true →
      Tui.collectSelectedPaths (Tui.toggleSelect n) = []) ∧
    Tui.selectedFlags (Tui.setExpanded n b) = Tui.selectedFlags n ∧
    (∀ q : String,
      Tui.selectedFlags (Tui.modifyByPath n q (fun x => Tui.setExpanded x b))
        = Tui.selectedFlags n) ∧
    Tui.selectedFlags (Tui.expandAll n) = Tui.selectedFlags n ∧
    Tui.selectedFlags (Tui.collapseAll n) = Tui.selectedFlags n := by
  refine ⟨?_, ?_, selFlags_setExpanded n b,
    fun q => selFlags_modifyExpanded n q b,
    selFlags_expandAll n, selFlags_collapseAll n⟩
  · intro hs
    unfold Tui.toggleSelect
    rw [hs]
    exact collect_setSelTrue n
  · intro hs
    unfold Tui.toggleSelect
    rw [hs]
    exact collect_setSelFalse n

/-- Concrete tree used to witness the C8 theorem: a directory with a file
child and a subdirectory holding another file. -/
def c8Tree : Tui.TemplateTreeNode :=
  .node "src" "src" true "" 0 false false
    [.node "src/a.go" "a.go" false "" 10 false false [],
     .node "src/sub" "sub" true "" 0 false false
       [.node "src/sub/b.go" "b.go" false "" 20 false false []]]

/-- Witness for the C8 theorem at the concrete tree: its two files are
src/a.go and src/sub/b.go, and toggling the unselected directory selects
exactly them. -/
theorem treeToggle_spec_witness :
    c8Tree.selectedFlag = false ∧
    Tui.collectSelectedPaths (Tui.toggleSelect c8Tree)
      = ["src/a.go", "src/sub/b.go"] ∧
    Tui.fileLeaves c8Tree = ["src/a.go", "src/sub/b.go"] ∧
    Tui.selectedFlags (Tui.expandAll c8Tree) = Tui.selectedFlags c8Tree :=
  ⟨rfl, by rw [(treeToggle_spec c8Tree true).1 rfl]; rfl, rfl,
    (treeToggle_spec c8Tree true).2.2.2.2.1⟩

/-- The template-source exclusion invariant on the target selector: whenever
an exclude path is stored, every candidate whose normalized path equals the
normalized exclude path is disabled. -/
def excludeInvariant (m : Tui.TemplateTargetsModel) : Prop :=
  m.excludePath ≠ "" →
    ∀ r ∈ m.repos,
      Tui.normalizePath r.path = Tui.normalizePath m.excludePath →
        r.isDisabled = true

/-- Membership in mapIdx comes from membership in the underlying list. -/
theorem mem_mapIdx_imp {α : Type} (f : ℕ → α → α) :
    ∀ (l : List α) (y : α), y ∈ l.mapIdx f → ∃ i x, x ∈ l ∧ y = f i x
  | [], y, h => by simp at h
  | a :: l, y, h => by
    rw [List.mapIdx_cons] at h
    rcases List.mem_cons.mp h with h | h
    · exact ⟨0, a, List.mem_cons_self _ _, h⟩
    · obtain ⟨i, x, hx, hy⟩ := mem_mapIdx_imp (fun i => f (i + 1)) l y h
      exact ⟨i + 1, x, List.mem_cons_of_mem _ hx, hy⟩

/-- SetExcludePath disables and deselects every candidate matching the new
exclude path. -/
theorem setExcludePath_disables (m : Tui.TemplateTargetsModel) (p : String)
    (hp : p ≠ "") :
    ∀ r ∈ (m.setExcludePath p).repos,
      Tui.normalizePath r.path = Tui.normalizePath p →
        r.isDisabled = true ∧ r.isSelected = false := by
  intro r hr hnorm
  simp only [Tui.TemplateTargetsModel.setExcludePath, List.mem_map] at hr
  obtain ⟨r₀, hr₀, rfl⟩ := hr
  simp only at hnorm
  simp [hp, hnorm]

/-- SetRepos establishes the exclusion invariant. -/
theorem setRepos_invariant (m : Tui.TemplateTargetsModel)
    (paths : List String) : excludeInvariant (m.setRepos paths) := by
  intro hx r hr hnorm
  simp only [Tui.TemplateTargetsModel.setRepos, List.mem_map] at hr hx hnorm ⊢
  obtain ⟨q, hq, rfl⟩ := hr
  simp only at hnorm
  simp [hx, hnorm]

/-- SetExcludePath establishes the exclusion invariant. -/
theorem setExcludePath_invariant (m : Tui.TemplateTargetsModel) (p : String) :
    excludeInvariant (m.setExcludePath p) := by
  intro hx r hr hnorm
  have hx' : p ≠ "" := hx
  exact (setExcludePath_disables m p hx' r hr hnorm).1

set_option maxHeartbeats 3000000 in
/-- Every key of the target selector keeps each candidate's path and
disabled flag, and a disabled candidate never becomes newly selected. -/
theorem updateKey_repos (m : Tui.TemplateTargetsModel) (key : String) :
    (m.updateKey key).excludePath = m.excludePath ∧
    ∀ r' ∈ (m.updateKey key).repos, ∃ r ∈ m.repos,
      r'.path = r.path ∧ r'.isDisabled = r.isDisabled ∧
      (r'.isDisabled = true → r'.isSelected = true → r.isSelected = true) := by
  have triv : ∀ (rs : List Tui.TemplateTargetRepo),
      ∀ r' ∈ rs, ∃ r ∈ rs,
        r'.path = r.path ∧ r'.isDisabled = r.isDisabled ∧
        (r'.isDisabled = true → r'.isSelected = true → r.isSelected = true) :=
    fun rs r' hr' => ⟨r', hr', rfl, rfl, fun _ h => h⟩
  obtain ⟨repos, cursor, filt, excl⟩ := m
  unfold Tui.TemplateTargetsModel.updateKey
  dsimp only
  split_ifs
  · exact ⟨rfl, triv repos⟩
  · exact ⟨rfl, triv repos⟩
  · exact ⟨rfl, triv repos⟩
  · exact ⟨rfl, triv repos⟩
  · -- space key: toggle through mapIdx, guarded by the disabled flag
    refine ⟨rfl, fun r' hr' => ?_⟩
    obtain ⟨i, r, hr, rfl⟩ := mem_mapIdx_imp _ _ _ hr'
    refine ⟨r, hr, ?_⟩
    split_ifs with hd
    · refine ⟨rfl, rfl, fun hdis _ => ?_⟩
      simp only [Bool.and_eq_true, Bool.not_eq_eq_eq_not, Bool.not_true,
        decide_eq_true_eq] at hd
      simp only at hdis
      rw [hdis] at hd
      exact absurd hd.2 (by simp)
    · exact ⟨rfl, rfl, fun _ h => h⟩
  · exact ⟨rfl, triv repos⟩
  · -- a key: select all non-disabled candidates
    refine ⟨rfl, fun r' hr' => ?_⟩
    obtain ⟨r, hr, rfl⟩ := List.mem_map.mp hr'
    refine ⟨r, hr, ?_⟩
    split_ifs with hd
    · refine ⟨rfl, rfl, fun hdis _ => ?_⟩
      simp only at hdis
      rw [hdis] at hd
      exact absurd hd (by simp)
    · exact ⟨rfl, rfl, fun _ h => h⟩
  · -- n key: deselect all candidates
    refine ⟨rfl, fun r' hr' => ?_⟩
    obtain ⟨r, hr, rfl⟩ := List.mem_map.mp hr'
    exact ⟨r, hr, rfl, rfl, fun _ hsel => by simp at hsel⟩
  · exact ⟨rfl, triv repos⟩
  · exact ⟨rfl, triv repos⟩
  · exact ⟨rfl, triv repos⟩
  · exact ⟨rfl, triv repos⟩
  · exact ⟨rfl, triv repos⟩
  · exact ⟨rfl, triv repos⟩

/-- Under the invariant, the selected target paths never contain a path that
normalizes to the exclude path. -/
theorem getSelectedPaths_excludes (m : Tui.TemplateTargetsModel)
    (hinv : excludeInvariant m) (hx : m.excludePath ≠ "") :
    ∀ q ∈ m.getSelectedPaths,
      Tui.normalizePath q ≠ Tui.normalizePath m.excludePath := by
  intro q hq hcontra
  simp only [Tui.TemplateTargetsModel.getSelectedPaths, List.mem_map,
    List.mem_filter] at hq
  obtain ⟨r, ⟨hr, hsel⟩, rfl⟩ := hq
  have hdis := hinv hx r hr hcontra
  simp [hdis] at hsel

/-- C9: the local template-source path is excluded from the target
candidates for the whole run: storing it as the exclude path disables and
deselects every matching candidate and establishes the exclusion invariant,
reloading the candidate list re-establishes it, every selector key press
preserves it (and can never newly select a disabled candidate), and under
the invariant the selected target paths handed to the sync job never contain
a path that normalizes to the excluded one. -/
theorem localTemplate_excluded (m : Tui.TemplateTargetsModel) (p : String)
    (hp : p ≠ "") (key : String) (paths : List String) :
    (∀ r ∈ (m.setExcludePath p).repos,
      Tui.normalizePath r.path = Tui.normalizePath p →
        r.isDisabled = true ∧ r.isSelected = false) ∧
    excludeInvariant (m.setExcludePath p) ∧
    excludeInvariant (m.setRepos paths) ∧
    (excludeInvariant m → excludeInvariant (m.updateKey key)) ∧
    (excludeInvariant m → m.excludePath ≠ "" →
      ∀ q ∈ m.getSelectedPaths,
        Tui.normalizePath q ≠ Tui.normalizePath m.excludePath) := by
  refine ⟨setExcludePath_disables m p hp, setExcludePath_invariant m p,
    setRepos_invariant m paths, ?_, getSelectedPaths_excludes m⟩
  intro hinv hx r' hr' hnorm
  obtain ⟨hxeq, hrep⟩ := updateKey_repos m key
  rw [hxeq] at hx hnorm
  obtain ⟨r, hr, hpath, hdis, _⟩ := hrep r' hr'
  rw [hdis]
  exact hinv hx r hr (hpath ▸ hnorm)

/-- Concrete target selector used to witness C9: two candidates, the
template source /repos/tpl and another repository, the source one selected
before the exclusion is applied. -/
def c9Model : Tui.TemplateTargetsModel :=
  { repos :=
      [{ path := "/repos/tpl", name := "tpl", isSelected := true,
         isDisabled := false },
       { path := "/repos/app", name := "app", isSelected := true,
         isDisabled := false }]
    cursor := 0
    filter := ""
    excludePath := "" }

/-- Witness for the C9 theorem at the concrete selector, and the evaluated
consequence: after excluding /repos/tpl the selected target paths are just
/repos/app. -/
theorem localTemplate_excluded_witness :
    (∀ r ∈ (c9Model.setExcludePath "/repos/tpl").repos,
      Tui.normalizePath r.path = Tui.normalizePath "/repos/tpl" →
        r.isDisabled = true ∧ r.isSelected = false) ∧
    (c9Model.setExcludePath "/repos/tpl").getSelectedPaths = ["/repos/app"] :=
  ⟨(localTemplate_excluded c9Model "/repos/tpl" (by decide) " " []).1, by
    decide⟩

/-- splitChar never returns the empty list of segments. -/
theorem splitChar_length_pos :
    ∀ (l : List Char) (c : Char), 0 < (splitChar l c).length
  | [], _ => by simp [splitChar]
  | a :: l, c => by
    simp only [splitChar]
    split_ifs
    · simp
    · split <;> simp

/-- C2: one queue item at a valid cursor follows the specified branch
structure, in GitHub mode and in local mode: a missing destination is
cloned / copied with the outcome recorded and the cursor advanced; an
existing destination is skipped as a success under skipAll, refreshed with
the outcome recorded under refreshAll, and otherwise suspends the run on a
conflict prompt carrying the repository name, destination path and cursor
index, with the model unchanged. -/
theorem syncQueue_item_branches (env : Tui.SyncEnv)
    (m : Tui.InlineProgressModel) (hmode : m.mode = "github")
    (htd : m.targetDir ≠ "") (hcl : env.clientOk = true)
    (hidx : m.pendingRepoIdx < m.repos.length) (owner repoName : String)
    (hsplit : goSplitSlash (m.repos.getD m.pendingRepoIdx "")
      = [owner, repoName]) :
    (env.pathExists (joinPath m.targetDir repoName) = false →
      Tui.syncNextRepoStep env m = .next { m with
        results := m.results ++
          [⟨repoName, (env.cloneErr owner repoName m.targetDir).isNone,
            (env.cloneErr owner repoName m.targetDir).map .adapter⟩]
        pendingRepoIdx := m.pendingRepoIdx + 1
        current := m.current + 1 }) ∧
    (env.pathExists (joinPath m.targetDir repoName) = true →
      m.skipAll = true →
      Tui.syncNextRepoStep env m = .next { m with
        results := m.results ++ [⟨repoName, true, none⟩]
        pendingRepoIdx := m.pendingRepoIdx + 1
        current := m.current + 1 }) ∧
    (env.pathExists (joinPath m.targetDir repoName) = true →
      m.skipAll = false → m.refreshAll = true →
      Tui.syncNextRepoStep env m = .next { m with
        results := m.results ++
          [⟨repoName,
            (env.refreshErrGitHub (joinPath m.targetDir repoName)).isNone,
            (env.refreshErrGitHub (joinPath m.targetDir repoName)).map
              .adapter⟩]
        pendingRepoIdx := m.pendingRepoIdx + 1
        current := m.current + 1 }) ∧
    (env.pathExists (joinPath m.targetDir repoName) = true →
      m.skipAll = false → m.refreshAll = false →
      ∀ fuel, Tui.runSync env (fuel + 1) m
        = .prompt repoName (joinPath m.targetDir repoName) m.pendingRepoIdx
            "github" m) ∧
    (∀ (m2 : Tui.InlineProgressModel) (name : String),
      m2.mode = "local" → m2.targetDir ≠ "" →
      m2.pendingRepoIdx < m2.repos.length →
      (goSplitSlash (m2.repos.getD m2.pendingRepoIdx "")).getLastD
          (m2.repos.getD m2.pendingRepoIdx "") = name →
      (env.pathExists (joinPath m2.targetDir name) = false →
        Tui.syncNextRepoStep env m2 = .next { m2 with
          results := m2.results ++
            [⟨name,
              (env.copyErr (m2.repos.getD m2.pendingRepoIdx "")
                m2.targetDir).isNone,
              (env.copyErr (m2.repos.getD m2.pendingRepoIdx "")
                m2.targetDir).map .adapter⟩]
          pendingRepoIdx := m2.pendingRepoIdx + 1
          current := m2.current + 1 }) ∧
      (env.pathExists (joinPath m2.targetDir name) = true →
        m2.skipAll = true →
        Tui.syncNextRepoStep env m2 = .next { m2 with
          results := m2.results ++ [⟨name, true, none⟩]
          pendingRepoIdx := m2.pendingRepoIdx + 1
          current := m2.current + 1 }) ∧
      (env.pathExists (joinPath m2.targetDir name) = true →
        m2.skipAll = false → m2.refreshAll = true →
        Tui.syncNextRepoStep env m2 = .next { m2 with
          results := m2.results ++
            [⟨name,
              (env.refreshErrLocal (joinPath m2.targetDir name)).isNone,
              (env.refreshErrLocal (joinPath m2.targetDir name)).map
                .adapter⟩]
          pendingRepoIdx := m2.pendingRepoIdx + 1
          current := m2.current + 1 }) ∧
      (env.pathExists (joinPath m2.targetDir name) = true →
        m2.skipAll = false → m2.refreshAll = false →
        ∀ fuel, Tui.runSync env (fuel + 1) m2
          = .prompt name (joinPath m2.targetDir name) m2.pendingRepoIdx
              "local" m2)) := by
  have hlen : ¬ m.pendingRepoIdx ≥ m.repos.length := by omega
  have hstep : Tui.syncNextRepoStep env m = Tui.syncNextGitHubRepo env m := by
    simp [Tui.syncNextRepoStep, hlen, hmode]
  rw [List.getD_eq_getElem?_getD] at hsplit
  refine ⟨?_, ?_, ?_, ?_, ?_⟩
  · intro hex
    rw [hstep]
    simp [Tui.syncNextGitHubRepo, htd, hcl, hsplit, hex]
  · intro hex hsk
    rw [hstep]
    simp [Tui.syncNextGitHubRepo, htd, hcl, hsplit, hex, hsk]
  · intro hex hsk hrf
    rw [hstep]
    simp [Tui.syncNextGitHubRepo, htd, hcl, hsplit, hex, hsk, hrf]
  · intro hex hsk hrf fuel
    have hpr : Tui.syncNextRepoStep env m
        = .repoExists repoName (joinPath m.targetDir repoName)
            m.pendingRepoIdx "github" := by
      rw [hstep]
      simp [Tui.syncNextGitHubRepo, htd, hcl, hsplit, hex, hsk, hrf]
    unfold Tui.runSync
    rw [hpr]
  · intro m2 name hmode2 htd2 hidx2 hname
    have hlen2 : ¬ m2.pendingRepoIdx ≥ m2.repos.length := by omega
    have hmode2' : m2.mode ≠ "github" := by simp [hmode2]
    have hstep2 : Tui.syncNextRepoStep env m2
        = Tui.syncNextLocalRepo env m2 := by
      simp [Tui.syncNextRepoStep, hlen2, hmode2']
    rw [List.getD_eq_getElem?_getD, List.getLastD_eq_getLast?] at hname
    have hpos : (goSplitSlash (m2.repos[m2.pendingRepoIdx]?.getD "")).length > 0 := by
      simpa [goSplitSlash] using
        splitChar_length_pos (m2.repos[m2.pendingRepoIdx]?.getD "").toList
          (Char.ofNat 47)
    refine ⟨?_, ?_, ?_, ?_⟩
    · intro hex
      rw [hstep2]
      simp [Tui.syncNextLocalRepo, htd2, hpos, hname, hex]
    · intro hex hsk
      rw [hstep2]
      simp [Tui.syncNextLocalRepo, htd2, hpos, hname, hex, hsk]
    · intro hex hsk hrf
      rw [hstep2]
      simp [Tui.syncNextLocalRepo, htd2, hpos, hname, hex, hsk, hrf]
    · intro hex hsk hrf fuel
      have hpr : Tui.syncNextRepoStep env m2
          = .repoExists name (joinPath m2.targetDir name)
              m2.pendingRepoIdx "local" := by
        rw [hstep2]
        simp [Tui.syncNextLocalRepo, htd2, hpos, hname, hex, hsk, hrf]
      unfold Tui.runSync
      rw [hpr]

/-- Adapter environment for the queue witnesses: both destination
directories already exist, all adapter operations succeed. -/
def cqEnv : Tui.SyncEnv :=
  { pathExists := fun p => p == "/tgt/repo1" || p == "/tgt/repo2"
    clientOk := true
    cloneErr := fun _ _ _ => none
    refreshErrGitHub := fun _ => none
    copyErr := fun _ _ => none
    refreshErrLocal := fun _ => none }

/-- Concrete GitHub-mode queue at the first of two repositories. -/
def cqModel : Tui.InlineProgressModel :=
  { repos := ["alice/repo1", "alice/repo2"]
    targetDir := "/tgt"
    mode := "github"
    current := 0
    total := 2
    pendingRepoIdx := 0
    results := []
    skipAll := false
    refreshAll := false }

/-- Witness for the C2 theorem: with repo1 already present and no sticky
flag, the run suspends on the conflict prompt for repo1 at cursor 0 with the
model unchanged. -/
theorem syncQueue_item_branches_witness :
    Tui.runSync cqEnv 1 cqModel
      = .prompt "repo1" (joinPath cqModel.targetDir "repo1") 0 "github"
          cqModel :=
  (syncQueue_item_branches cqEnv cqModel rfl (by decide) rfl (by decide)
      "alice" "repo1" (by decide)).2.2.2.1 (by decide) rfl rfl 0

/-- With a sticky flag set, one queue step never produces a conflict
prompt. -/
theorem syncStep_no_prompt (env : Tui.SyncEnv) (m : Tui.InlineProgressModel)
    (h : m.skipAll = true ∨ m.refreshAll = true) (n p : String) (i : Nat)
    (md : String) : Tui.syncNextRepoStep env m ≠ .repoExists n p i md := by
  unfold Tui.syncNextRepoStep Tui.syncNextGitHubRepo Tui.syncNextLocalRepo
  dsimp only
  rcases h with h | h <;> split_ifs <;> simp_all

/-- A queue step that continues preserves both sticky flags. -/
theorem syncStep_next_flags (env : Tui.SyncEnv)
    (m m' : Tui.InlineProgressModel)
    (h : Tui.syncNextRepoStep env m = .next m') :
    m'.skipAll = m.skipAll ∧ m'.refreshAll = m.refreshAll := by
  unfold Tui.syncNextRepoStep Tui.syncNextGitHubRepo Tui.syncNextLocalRepo at h
  dsimp only at h
  split_ifs at h <;> simp_all <;> subst h <;> exact ⟨rfl, rfl⟩

/-- With a sticky flag set, a queue run never suspends on a prompt, whatever
the fuel. -/
theorem runSync_no_prompt (env : Tui.SyncEnv) :
    ∀ (fuel : Nat) (m : Tui.InlineProgressModel),
      (m.skipAll = true ∨ m.refreshAll = true) →
      ∀ (n p : String) (i : Nat) (md : String)
        (m' : Tui.InlineProgressModel),
        Tui.runSync env fuel m ≠ .prompt n p i md m'
  | 0, m, h, n, p, i, md, m' => by simp [Tui.runSync]
  | fuel + 1, m, h, n, p, i, md, m' => by
    unfold Tui.runSync
    rcases hstep : Tui.syncNextRepoStep env m with rs | ⟨a, b, c, d⟩ | m2
    · simp
    · exact absurd hstep (syncStep_no_prompt env m h a b c d)
    · have hf := syncStep_next_flags env m m2 hstep
      have h2 : m2.skipAll = true ∨ m2.refreshAll = true := by
        rcases h with h | h
        · exact Or.inl (hf.1.trans h)
        · exact Or.inr (hf.2.trans h)
      exact runSync_no_prompt env fuel m2 h2 n p i md m'

/-- C3: after a SkipAll or RefreshAll decision is applied, the corresponding
sticky flag is set and no amount of further queue execution can produce
another conflict prompt; every remaining item is resolved automatically. -/
theorem stickyDecision_no_later_prompt (env : Tui.SyncEnv)
    (m : Tui.InlineProgressModel) (act : Tui.ExistsAction)
    (ha : act = .skipAllAction ∨ act = .refreshAllAction) :
    (act = .skipAllAction →
      (Tui.handleRepoExistsResponse env m act).skipAll = true) ∧
    (act = .refreshAllAction →
      (Tui.handleRepoExistsResponse env m act).refreshAll = true) ∧
    ∀ (fuel : Nat) (n p : String) (i : Nat) (md : String)
      (m' : Tui.InlineProgressModel),
      Tui.runSync env fuel (Tui.handleRepoExistsResponse env m act)
        ≠ .prompt n p i md m' := by
  have hflag :
      (Tui.handleRepoExistsResponse env m act).skipAll = true ∨
      (Tui.handleRepoExistsResponse env m act).refreshAll = true := by
    rcases ha with rfl | rfl
    · exact Or.inl rfl
    · exact Or.inr rfl
  refine ⟨?_, ?_, fun fuel n p i md m' =>
    runSync_no_prompt env fuel _ hflag n p i md m'⟩
  · rintro rfl
    rfl
  · rintro rfl
    rfl

/-- Queue model one decision deep: the prompt for repo1 was answered, so the
witness starts the handler at cursor 0 with both destinations existing. -/
theorem stickyDecision_no_later_prompt_witness :
    (Tui.handleRepoExistsResponse cqEnv cqModel .skipAllAction).skipAll
      = true ∧
    Tui.runSync cqEnv 3 (Tui.handleRepoExistsResponse cqEnv cqModel
        .skipAllAction)
      ≠ .prompt "repo2" "/tgt/repo2" 1 "github" cqModel ∧
    Tui.runSync cqEnv 3 (Tui.handleRepoExistsResponse cqEnv cqModel
        .skipAllAction)
      = .complete [⟨"repo1", true, none⟩, ⟨"repo2", true, none⟩] :=
  ⟨(stickyDecision_no_later_prompt cqEnv cqModel .skipAllAction
      (Or.inl rfl)).1 rfl,
   (stickyDecision_no_later_prompt cqEnv cqModel .skipAllAction
      (Or.inl rfl)).2.2 3 "repo2" "/tgt/repo2" 1 "github" cqModel,
   by decide⟩

/-- Under target directory, client and skip-all preconditions, one GitHub
queue step always continues to the next item, keeping the queue fields and
appending exactly one result. -/
theorem syncStep_progress (env : Tui.SyncEnv) (m : Tui.InlineProgressModel)
    (hmode : m.mode = "github") (htd : m.targetDir ≠ "")
    (hcl : env.clientOk = true) (hsk : m.skipAll = true)
    (hidx : m.pendingRepoIdx < m.repos.length) :
    ∃ m', Tui.syncNextRepoStep env m = .next m' ∧
      m'.repos = m.repos ∧ m'.targetDir = m.targetDir ∧ m'.mode = m.mode ∧
      m'.skipAll = true ∧ m'.pendingRepoIdx = m.pendingRepoIdx + 1 ∧
      m'.results.length = m.results.length + 1 := by
  have hlen : ¬ m.pendingRepoIdx ≥ m.repos.length := by omega
  unfold Tui.syncNextRepoStep Tui.syncNextGitHubRepo
  dsimp only
  split_ifs <;> simp_all

/-- With the skip-all flag set and valid target and client, the queue runs
to completion with one result per remaining item, whatever the adapter
outcomes. -/
theorem runSync_completes (env : Tui.SyncEnv) :
    ∀ (fuel : Nat) (m : Tui.InlineProgressModel),
      m.mode = "github" → m.targetDir ≠ "" → env.clientOk = true →
      m.skipAll = true → m.repos.length - m.pendingRepoIdx ≤ fuel →
      ∃ rs, Tui.runSync env (fuel + 1) m = .complete rs ∧
        rs.length = m.results.length +
          (m.repos.length - m.pendingRepoIdx) := by
  intro fuel
  induction fuel with
  | zero =>
    intro m hmode htd hcl hsk hrem
    have hge : m.pendingRepoIdx ≥ m.repos.length := by omega
    refine ⟨m.results, ?_, by omega⟩
    unfold Tui.runSync
    have : Tui.syncNextRepoStep env m = .complete m.results := by
      simp [Tui.syncNextRepoStep, hge]
    rw [this]
  | succ fuel ih =>
    intro m hmode htd hcl hsk hrem
    by_cases hge : m.pendingRepoIdx ≥ m.repos.length
    · refine ⟨m.results, ?_, by omega⟩
      unfold Tui.runSync
      have : Tui.syncNextRepoStep env m = .complete m.results := by
        simp [Tui.syncNextRepoStep, hge]
      rw [this]
    · have hidx : m.pendingRepoIdx < m.repos.length := by omega
      obtain ⟨m', hstep, hrepos, htd', hmode', hsk', hidx', hres⟩ :=
        syncStep_progress env m hmode htd hcl hsk hidx
      obtain ⟨rs, hrun, hlen⟩ := ih m' (hmode' ▸ hmode) (htd' ▸ htd) hcl hsk'
        (by rw [hrepos, hidx']; omega)
      refine ⟨rs, ?_, ?_⟩
      · show Tui.runSync env (fuel + 1 + 1) m = .complete rs
        unfold Tui.runSync
        rw [hstep]
        exact hrun
      · rw [hlen, hres, hrepos, hidx']
        omega

/-- C7: an adapter failure is recorded as a failed result for that item only
and never ends the run: an identifier that is not owner/repo or a failing
clone each append one failed result and advance the cursor; a failing local
copy does the same; and with valid preconditions the remaining queue always
reaches completion with one result per item, whatever errors the adapters
return. -/
theorem adapterFailure_isolated (env : Tui.SyncEnv)
    (m : Tui.InlineProgressModel) (hmode : m.mode = "github")
    (htd : m.targetDir ≠ "") (hcl : env.clientOk = true)
    (hidx : m.pendingRepoIdx < m.repos.length) :
    ((goSplitSlash (m.repos.getD m.pendingRepoIdx "")).length ≠ 2 →
      Tui.syncNextRepoStep env m = .next { m with
        results := m.results ++
          [⟨m.repos.getD m.pendingRepoIdx "", false,
            some (.invalidRepoFormat (m.repos.getD m.pendingRepoIdx ""))⟩]
        pendingRepoIdx := m.pendingRepoIdx + 1
        current := m.current + 1 }) ∧
    (∀ owner repoName e,
      goSplitSlash (m.repos.getD m.pendingRepoIdx "") = [owner, repoName] →
      env.pathExists (joinPath m.targetDir repoName) = false →
      env.cloneErr owner repoName m.targetDir = some e →
      Tui.syncNextRepoStep env m = .next { m with
        results := m.results ++ [⟨repoName, false, some (.adapter e)⟩]
        pendingRepoIdx := m.pendingRepoIdx + 1
        current := m.current + 1 }) ∧
    (∀ (m2 : Tui.InlineProgressModel) (name e : String),
      m2.mode = "local" → m2.targetDir ≠ "" →
      m2.pendingRepoIdx < m2.repos.length →
      (goSplitSlash (m2.repos.getD m2.pendingRepoIdx "")).getLastD
          (m2.repos.getD m2.pendingRepoIdx "") = name →
      env.pathExists (joinPath m2.targetDir name) = false →
      env.copyErr (m2.repos.getD m2.pendingRepoIdx "") m2.targetDir
        = some e →
      Tui.syncNextRepoStep env m2 = .next { m2 with
        results := m2.results ++ [⟨name, false, some (.adapter e)⟩]
        pendingRepoIdx := m2.pendingRepoIdx + 1
        current := m2.current + 1 }) ∧
    (m.skipAll = true → ∀ fuel, m.repos.length - m.pendingRepoIdx ≤ fuel →
      ∃ rs, Tui.runSync env (fuel + 1) m = .complete rs ∧
        rs.length = m.results.length +
          (m.repos.length - m.pendingRepoIdx)) := by
  have hlen : ¬ m.pendingRepoIdx ≥ m.repos.length := by omega
  have hstep : Tui.syncNextRepoStep env m = Tui.syncNextGitHubRepo env m := by
    simp [Tui.syncNextRepoStep, hlen, hmode]
  refine ⟨?_, ?_, ?_, ?_⟩
  · intro hfmt
    rw [List.getD_eq_getElem?_getD] at hfmt ⊢
    rw [hstep]
    simp [Tui.syncNextGitHubRepo, htd, hcl, hfmt]
  · intro owner repoName e hsplit hex herr
    rw [List.getD_eq_getElem?_getD] at hsplit
    rw [hstep]
    simp [Tui.syncNextGitHubRepo, htd, hcl, hsplit, hex, herr]
  · intro m2 name e hmode2 htd2 hidx2 hname hex herr2
    have hlen2 : ¬ m2.pendingRepoIdx ≥ m2.repos.length := by omega
    have hmode2' : m2.mode ≠ "github" := by simp [hmode2]
    have hstep2 : Tui.syncNextRepoStep env m2
        = Tui.syncNextLocalRepo env m2 := by
      simp [Tui.syncNextRepoStep, hlen2, hmode2']
    rw [List.getD_eq_getElem?_getD, List.getLastD_eq_getLast?] at hname
    rw [List.getD_eq_getElem?_getD] at herr2
    have hpos : (goSplitSlash (m2.repos[m2.pendingRepoIdx]?.getD "")).length
        > 0 := by
      simpa [goSplitSlash] using
        splitChar_length_pos (m2.repos[m2.pendingRepoIdx]?.getD "").toList
          (Char.ofNat 47)
    rw [hstep2]
    simp [Tui.syncNextLocalRepo, htd2, hpos, hname, hex, herr2]
  · intro hsk fuel hrem
    exact runSync_completes env fuel m hmode htd hcl hsk hrem

/-- Environment for the C7 witness: no destination exists and every clone
fails with a network error. -/
def c7Env : Tui.SyncEnv :=
  { pathExists := fun _ => false
    clientOk := true
    cloneErr := fun _ _ _ => some "network unreachable"
    refreshErrGitHub := fun _ => none
    copyErr := fun _ _ => none
    refreshErrLocal := fun _ => none }

/-- Witness for the C7 theorem: the failing clone of repo1 appends exactly
the failed result and advances the cursor. -/
theorem adapterFailure_isolated_witness :
    Tui.syncNextRepoStep c7Env cqModel = .next { cqModel with
      results := [⟨"repo1", false, some (.adapter "network unreachable")⟩]
      pendingRepoIdx := 1
      current := 1 } :=
  (adapterFailure_isolated c7Env cqModel rfl (by decide) rfl
      (by decide)).2.1 "alice" "repo1" "network unreachable" (by decide)
    (by decide) rfl

/-- The (target, file) pairs visited by the SyncFiles double loop, outer
targets, inner files, in iteration order. -/
def pairsOf (files targets : List String) : List (String × String) :=
  targets.bind fun t => files.map fun f => (t, f)

/-- The SyncFiles double loop re-expressed as a single fold over the visited
pairs; proved equal to syncFilesLoop below. -/
def syncPairs (env : Template.TEnv)
    (cfn : String → String → Template.ConflictAction) (total : Nat)
    (st : Template.SFState) (ps : List (String × String)) :
    Template.SFState :=
  ps.foldl (fun st p => Template.syncFilesBody env cfn total p.1 p.2 st) st

/-- Unfolding one pair of the flattened loop. -/
theorem syncPairs_cons (env : Template.TEnv)
    (cfn : String → String → Template.ConflictAction) (total : Nat)
    (st : Template.SFState) (p : String × String)
    (ps : List (String × String)) :
    syncPairs env cfn total st (p :: ps)
      = syncPairs env cfn total
          (Template.syncFilesBody env cfn total p.1 p.2 st) ps := rfl

/-- The nested loops of SyncFiles equal the fold over the visited pairs. -/
theorem syncFilesLoop_eq_pairs (env : Template.TEnv)
    (cfn : String → String → Template.ConflictAction) (total : Nat)
    (files : List String) :
    ∀ (targets : List String) (st : Template.SFState),
      Template.syncFilesLoop env cfn total files st targets
        = syncPairs env cfn total st (pairsOf files targets) := by
  intro targets
  induction targets with
  | nil => intro st; rfl
  | cons t ts ih =>
    intro st
    have hsplitp : pairsOf files (t :: ts)
        = (files.map fun f => (t, f)) ++ pairsOf files ts := by
      simp [pairsOf]
    have hinner : Template.syncFilesInner env cfn total t st files
        = syncPairs env cfn total st (files.map fun f => (t, f)) := by
      simp [Template.syncFilesInner, syncPairs, List.foldl_map]
    calc Template.syncFilesLoop env cfn total files st (t :: ts)
        = Template.syncFilesLoop env cfn total files
            (Template.syncFilesInner env cfn total t st files) ts := rfl
      _ = syncPairs env cfn total
            (syncPairs env cfn total st (files.map fun f => (t, f)))
            (pairsOf files ts) := by rw [ih, hinner]
      _ = syncPairs env cfn total st (pairsOf files (t :: ts)) := by
          rw [hsplitp]
          simp [syncPairs, List.foldl_append]

/-- SyncFiles in terms of the flattened pair fold. -/
theorem syncFiles_eq_pairs (env : Template.TEnv) (e : Template.Engine)
    (files targets : List String)
    (cfn : String → String → Template.ConflictAction) :
    Template.syncFiles env e files targets cfn
      = syncPairs env cfn (files.length * targets.length)
          ⟨e, 0, [], [], []⟩ (pairsOf files targets) := by
  unfold Template.syncFiles
  exact syncFilesLoop_eq_pairs env cfn _ files targets _

/-- A result is well formed when it falls in exactly one summary bucket:
an error, a skip, or a success. -/
def wfResult (r : Template.SyncResult) : Prop :=
  r.error.isSome = true ∨ r.skipped = true ∨ r.success = true

/-- The written-file result carries the given file and target and is well
formed. -/
theorem syncWrite_spec (env : Template.TEnv) (file target : String) :
    (Template.syncWrite env file target).filePath = file ∧
    (Template.syncWrite env file target).targetRepo = target ∧
    (Template.syncWrite env file target).skipped = false ∧
    wfResult (Template.syncWrite env file target) := by
  unfold Template.syncWrite wfResult
  cases env.syncErr file target <;> simp

/-- One loop iteration increments the counter. -/
theorem body_current (env : Template.TEnv)
    (cfn : String → String → Template.ConflictAction) (total : Nat)
    (target file : String) (st : Template.SFState) :
    (Template.syncFilesBody env cfn total target file st).current
      = st.current + 1 := by
  unfold Template.syncFilesBody
  cases env.conflictCheck file target with
  | error e => rfl
  | ok b =>
    dsimp only
    split_ifs <;> (try rfl) <;> (cases cfn file target <;> rfl)

/-- One loop iteration pushes exactly one progress record, with the
incremented counter, the given total, and the current file and target. -/
theorem body_progress (env : Template.TEnv)
    (cfn : String → String → Template.ConflictAction) (total : Nat)
    (target file : String) (st : Template.SFState) :
    (Template.syncFilesBody env cfn total target file st).progress
      = st.progress ++ [⟨st.current + 1, total, file, target⟩] := by
  unfold Template.syncFilesBody
  cases env.conflictCheck file target with
  | error e => rfl
  | ok b =>
    dsimp only
    split_ifs <;> (try rfl) <;> (cases cfn file target <;> rfl)

/-- One loop iteration appends exactly one well-formed result carrying the
given file and target. -/
theorem body_results (env : Template.TEnv)
    (cfn : String → String → Template.ConflictAction) (total : Nat)
    (target file : String) (st : Template.SFState) :
    ∃ r, (Template.syncFilesBody env cfn total target file st).results
        = st.results ++ [r] ∧
      r.filePath = file ∧ r.targetRepo = target ∧ wfResult r := by
  obtain ⟨hw1, hw2, _, hw4⟩ := syncWrite_spec env file target
  unfold Template.syncFilesBody
  cases env.conflictCheck file target with
  | error e => exact ⟨_, rfl, rfl, rfl, Or.inl rfl⟩
  | ok b =>
    dsimp only
    split_ifs
    · exact ⟨_, rfl, hw1, hw2, hw4⟩
    · exact ⟨_, rfl, rfl, rfl, Or.inr (Or.inl rfl)⟩
    · cases cfn file target
      · exact ⟨_, rfl, hw1, hw2, hw4⟩
      · exact ⟨_, rfl, rfl, rfl, Or.inr (Or.inl rfl)⟩
      · exact ⟨_, rfl, hw1, hw2, hw4⟩
      · exact ⟨_, rfl, rfl, rfl, Or.inr (Or.inl rfl)⟩
    · exact ⟨_, rfl, hw1, hw2, hw4⟩

/-- With a sticky flag already set, one iteration invokes no conflict
callback and leaves the engine unchanged. -/
theorem body_flagged (env : Template.TEnv)
    (cfn : String → String → Template.ConflictAction) (total : Nat)
    (target file : String) (st : Template.SFState)
    (h : st.engine.overwriteAll = true ∨ st.engine.skipAll = true) :
    (Template.syncFilesBody env cfn total target file st).asks = st.asks ∧
    (Template.syncFilesBody env cfn total target file st).engine
      = st.engine := by
  unfold Template.syncFilesBody
  cases env.conflictCheck file target with
  | error e => exact ⟨rfl, rfl⟩
  | ok b =>
    dsimp only
    rcases h with h | h <;> split_ifs <;> simp_all

/-- The progress records produced from a given counter value onward: one per
pair, counters consecutive, each carrying the pair's file and target. -/
def progressOf (total : Nat) :
    Nat → List (String × String) → List Template.SyncProgress
  | _, [] => []
  | c, p :: ps => ⟨c + 1, total, p.2, p.1⟩ :: progressOf total (c + 1) ps

/-- progressOf yields one record per pair. -/
theorem progressOf_length (total : Nat) :
    ∀ (c : Nat) (ps : List (String × String)),
      (progressOf total c ps).length = ps.length
  | _, [] => rfl
  | c, p :: ps => by simp [progressOf, progressOf_length total (c + 1) ps]

/-- The counters of progressOf are the consecutive integers starting one
above the initial counter. -/
theorem progressOf_currents (total : Nat) :
    ∀ (c : Nat) (ps : List (String × String)),
      (progressOf total c ps).map (fun pr => pr.current)
        = List.range' (c + 1) ps.length
  | _, [] => rfl
  | c, p :: ps => by
    simp [progressOf, List.range'_succ, progressOf_currents total (c + 1) ps]

/-- The (file, target) components of progressOf are the visited pairs. -/
theorem progressOf_pairs (total : Nat) :
    ∀ (c : Nat) (ps : List (String × String)),
      (progressOf total c ps).map (fun pr => (pr.currentFile, pr.targetRepo))
        = ps.map fun p => (p.2, p.1)
  | _, [] => rfl
  | c, p :: ps => by
    simp [progressOf, progressOf_pairs total (c + 1) ps]

/-- Over any pair list, the fold pushes exactly the progressOf records and
advances the counter by the number of pairs. -/
theorem pairs_progress (env : Template.TEnv)
    (cfn : String → String → Template.ConflictAction) (total : Nat) :
    ∀ (ps : List (String × String)) (st : Template.SFState),
      (syncPairs env cfn total st ps).progress
          = st.progress ++ progressOf total st.current ps ∧
      (syncPairs env cfn total st ps).current = st.current + ps.length
  | [], st => by simp [syncPairs, progressOf]
  | p :: ps, st => by
    have hb1 := body_current env cfn total p.1 p.2 st
    have hb2 := body_progress env cfn total p.1 p.2 st
    have ih := pairs_progress env cfn total ps
      (Template.syncFilesBody env cfn total p.1 p.2 st)
    rw [syncPairs_cons]
    refine ⟨?_, ?_⟩
    · rw [ih.1, hb2, hb1, progressOf]
      simp
    · rw [ih.2, hb1]
      simp [Nat.add_assoc, Nat.add_comm 1 ps.length]

/-- Over any pair list, the fold appends exactly one well-formed result per
pair. -/
theorem pairs_results (env : Template.TEnv)
    (cfn : String → String → Template.ConflictAction) (total : Nat) :
    ∀ (ps : List (String × String)) (st : Template.SFState),
      ∃ rs, (syncPairs env cfn total st ps).results = st.results ++ rs ∧
        rs.length = ps.length ∧ ∀ r ∈ rs, wfResult r
  | [], st => ⟨[], by simp [syncPairs], rfl, by simp⟩
  | p :: ps, st => by
    obtain ⟨r, hr, _, _, hwf⟩ := body_results env cfn total p.1 p.2 st
    obtain ⟨rs, hrs, hlen, hall⟩ := pairs_results env cfn total ps
      (Template.syncFilesBody env cfn total p.1 p.2 st)
    refine ⟨r :: rs, ?_, by simp [hlen], ?_⟩
    · rw [syncPairs_cons, hrs, hr]
      simp
    · intro x hx
      rcases List.mem_cons.mp hx with rfl | hx
      · exact hwf
      · exact hall x hx

/-- Summary counting over well-formed results: every result lands in exactly
one bucket, so the three counts add up to the number of results. -/
theorem getSyncSummary_wf (rs : List Template.SyncResult)
    (h : ∀ r ∈ rs, wfResult r) :
    (Template.getSyncSummary rs).1 + (Template.getSyncSummary rs).2.1 +
      (Template.getSyncSummary rs).2.2 = rs.length := by
  suffices H : ∀ (l : List Template.SyncResult) (acc : Nat × Nat × Nat),
      (∀ r ∈ l, wfResult r) →
      (l.foldl
        (fun acc r =>
          if r.error.isSome then (acc.1, acc.2.1, acc.2.2 + 1)
          else if r.skipped then (acc.1, acc.2.1 + 1, acc.2.2)
          else if r.success then (acc.1 + 1, acc.2.1, acc.2.2)
          else acc) acc).1 +
      (l.foldl
        (fun acc r =>
          if r.error.isSome then (acc.1, acc.2.1, acc.2.2 + 1)
          else if r.skipped then (acc.1, acc.2.1 + 1, acc.2.2)
          else if r.success then (acc.1 + 1, acc.2.1, acc.2.2)
          else acc) acc).2.1 +
      (l.foldl
        (fun acc r =>
          if r.error.isSome then (acc.1, acc.2.1, acc.2.2 + 1)
          else if r.skipped then (acc.1, acc.2.1 + 1, acc.2.2)
          else if r.success then (acc.1 + 1, acc.2.1, acc.2.2)
          else acc) acc).2.2
        = acc.1 + acc.2.1 + acc.2.2 + l.length by
    have := H rs (0, 0, 0) h
    simpa [Template.getSyncSummary] using this
  intro l
  induction l with
  | nil => intro acc _; simp
  | cons r l ih =>
    intro acc hall
    have hr := hall r (List.mem_cons_self _ _)
    have hrest : ∀ x ∈ l, wfResult x :=
      fun x hx => hall x (List.mem_cons_of_mem _ hx)
    simp only [List.foldl_cons, List.length_cons]
    by_cases h1 : r.error.isSome
    · rw [if_pos h1, ih ((acc.1, acc.2.1, acc.2.2 + 1)) hrest]
      simp
      omega
    · by_cases h2 : r.skipped
      · rw [if_neg h1, if_pos h2, ih ((acc.1, acc.2.1 + 1, acc.2.2)) hrest]
        simp
        omega
      · have h3 : r.success = true := by
          rcases hr with hr | hr | hr
          · exact absurd hr h1
          · exact absurd hr (by simpa using h2)
          · exact hr
        rw [if_neg h1, if_neg h2, if_pos h3,
          ih ((acc.1 + 1, acc.2.1, acc.2.2)) hrest]
        simp
        omega

/-- The double loop visits |files| * |targets| pairs. -/
theorem pairsOf_length (files targets : List String) :
    (pairsOf files targets).length = files.length * targets.length := by
  induction targets with
  | nil => simp [pairsOf]
  | cons t ts ih =>
    simp [pairsOf] at ih ⊢
    rw [ih, Nat.mul_succ]
    omega

/-- With duplicate-free files and targets, the visited pairs are pairwise
distinct. -/
theorem pairsOf_nodup (files targets : List String)
    (hF : files.Nodup) (hT : targets.Nodup) : (pairsOf files targets).Nodup := by
  induction targets with
  | nil => simp [pairsOf]
  | cons t ts ih =>
    have hts : ts.Nodup := (List.nodup_cons.mp hT).2
    have htn : t ∉ ts := (List.nodup_cons.mp hT).1
    have h1 : (files.map fun f => (t, f)).Nodup :=
      hF.map fun a b hab => by simpa using congrArg Prod.snd hab
    have h2 : (pairsOf files ts).Nodup := ih hts
    have hdisj : ∀ p ∈ files.map fun f => (t, f), p ∉ pairsOf files ts := by
      intro p hp hq
      obtain ⟨f, hf, rfl⟩ := List.mem_map.mp hp
      simp only [pairsOf, List.mem_bind, List.mem_map] at hq
      obtain ⟨t2, ht2, f2, hf2, heq⟩ := hq
      have : t2 = t := congrArg Prod.fst heq
      exact htn (this ▸ ht2)
    have : pairsOf files (t :: ts)
        = (files.map fun f => (t, f)) ++ pairsOf files ts := by simp [pairsOf]
    rw [this, List.nodup_append]
    exact ⟨h1, h2, hdisj⟩

/-- C4: a background template sync over non-empty, duplicate-free selected
files F and targets T performs exactly |F| * |T| file operations (one result
each), invokes the progress callback exactly once per operation with the
running index going 1, 2, ..., |F| * |T| and with pairwise distinct (file,
target) pairs, and the final summary counts satisfy synced + skipped +
errors = |F| * |T|. -/
theorem templateSync_progress_count (env : Template.TEnv)
    (cfn : String → String → Template.ConflictAction)
    (files targets : List String) (e : Template.Engine)
    (hF : files ≠ []) (hT : targets ≠ [])
    (hFn : files.Nodup) (hTn : targets.Nodup) :
    (Template.syncFiles env e files targets cfn).results.length
        = files.length * targets.length ∧
    (Template.syncFiles env e files targets cfn).progress.length
        = files.length * targets.length ∧
    (Template.syncFiles env e files targets cfn).progress.map
        (fun pr => pr.current)
      = List.range' 1 (files.length * targets.length) ∧
    ((Template.syncFiles env e files targets cfn).progress.map
        fun pr => (pr.currentFile, pr.targetRepo)).Nodup ∧
    (Template.getSyncSummary
        (Template.syncFiles env e files targets cfn).results).1 +
      (Template.getSyncSummary
        (Template.syncFiles env e files targets cfn).results).2.1 +
      (Template.getSyncSummary
        (Template.syncFiles env e files targets cfn).results).2.2
        = files.length * targets.length := by
  have hlen := pairsOf_length files targets
  rw [syncFiles_eq_pairs]
  obtain ⟨rs, hrs, hrlen, hwf⟩ :=
    pairs_results env cfn (files.length * targets.length)
      (pairsOf files targets) ⟨e, 0, [], [], []⟩
  obtain ⟨hprog, _⟩ :=
    pairs_progress env cfn (files.length * targets.length)
      (pairsOf files targets) ⟨e, 0, [], [], []⟩
  refine ⟨?_, ?_, ?_, ?_, ?_⟩
  · rw [hrs]
    simpa [hrlen] using hlen
  · rw [hprog]
    simpa [progressOf_length] using hlen
  · rw [hprog]
    simp only [List.nil_append]
    rw [progressOf_currents, hlen]
  · rw [hprog]
    simp only [List.nil_append]
    rw [progressOf_pairs]
    exact (pairsOf_nodup files targets hFn hTn).map fun a b hab => by
      have h1 := congrArg Prod.fst hab
      have h2 := congrArg Prod.snd hab
      simp only at h1 h2
      exact Prod.ext h2 h1
  · rw [hrs]
    simp only [List.nil_append]
    rw [getSyncSummary_wf rs hwf, hrlen]
    exact hlen

/-- Environment for the template engine witnesses: no destination conflicts,
all writes succeed. -/
def c4Env : Template.TEnv :=
  { conflictCheck := fun _ _ => .ok false
    syncErr := fun _ _ => none }

/-- Witness for the C4 theorem: 2 files and 3 targets give 6 operations,
progress indices 1 to 6 and summary 6 + 0 + 0. -/
theorem templateSync_progress_count_witness :
    (Template.syncFiles c4Env ⟨false, false⟩ ["a.txt", "b.txt"]
        ["/r1", "/r2", "/r3"] (fun _ _ => .skip)).results.length = 6 ∧
    (Template.syncFiles c4Env ⟨false, false⟩ ["a.txt", "b.txt"]
        ["/r1", "/r2", "/r3"] (fun _ _ => .skip)).progress.map
        (fun pr => pr.current) = [1, 2, 3, 4, 5, 6] ∧
    (Template.getSyncSummary
        (Template.syncFiles c4Env ⟨false, false⟩ ["a.txt", "b.txt"]
          ["/r1", "/r2", "/r3"] (fun _ _ => .skip)).results).1 +
      (Template.getSyncSummary
        (Template.syncFiles c4Env ⟨false, false⟩ ["a.txt", "b.txt"]
          ["/r1", "/r2", "/r3"] (fun _ _ => .skip)).results).2.1 +
      (Template.getSyncSummary
        (Template.syncFiles c4Env ⟨false, false⟩ ["a.txt", "b.txt"]
          ["/r1", "/r2", "/r3"] (fun _ _ => .skip)).results).2.2 = 6 :=
  ⟨(templateSync_progress_count c4Env (fun _ _ => .skip) ["a.txt", "b.txt"]
      ["/r1", "/r2", "/r3"] ⟨false, false⟩ (by decide) (by decide)
      (by decide) (by decide)).1,
   by
    rw [(templateSync_progress_count c4Env (fun _ _ => .skip)
      ["a.txt", "b.txt"] ["/r1", "/r2", "/r3"] ⟨false, false⟩ (by decide)
      (by decide) (by decide) (by decide)).2.2.1]
    rfl,
   (templateSync_progress_count c4Env (fun _ _ => .skip) ["a.txt", "b.txt"]
      ["/r1", "/r2", "/r3"] ⟨false, false⟩ (by decide) (by decide)
      (by decide) (by decide)).2.2.2.2⟩

/-- A one-shot conflict answer: Overwrite or Skip, as opposed to the two
All answers that set a sticky flag. -/
def oneShot (cfn : String → String → Template.ConflictAction)
    (a : String × String) : Prop :=
  cfn a.1 a.2 = Template.ConflictAction.overwrite ∨
    cfn a.1 a.2 = Template.ConflictAction.skip

/-- Invariant threaded through a SyncFiles run: while both sticky flags are
clear every past callback was answered one-shot, and in any case every
callback except possibly the most recent one was answered one-shot. -/
def asksInv (cfn : String → String → Template.ConflictAction)
    (st : Template.SFState) : Prop :=
  ((st.engine.overwriteAll = false ∧ st.engine.skipAll = false) →
    ∀ a ∈ st.asks, oneShot cfn a) ∧
  ∀ a ∈ st.asks.dropLast, oneShot cfn a

/-- Dropping the last element of a list extended by one element gives back
the list. -/
theorem dropLast_append_single {α : Type} (l : List α) (x : α) :
    (l ++ [x]).dropLast = l := by simp

/-- When no conflict is found (or the conflict check errors), one iteration
invokes no callback and leaves the engine unchanged. -/
theorem body_noconflict (env : Template.TEnv)
    (cfn : String → String → Template.ConflictAction) (total : Nat)
    (target file : String) (st : Template.SFState)
    (h : (∃ e, env.conflictCheck file target = .error e) ∨
      env.conflictCheck file target = .ok false) :
    (Template.syncFilesBody env cfn total target file st).asks = st.asks ∧
    (Template.syncFilesBody env cfn total target file st).engine
      = st.engine := by
  unfold Template.syncFilesBody
  rcases h with ⟨e, he⟩ | he <;> rw [he] <;> simp

/-- With both flags clear, a conflicting iteration invokes the callback on
exactly this (file, target) pair and updates the engine according to the
answer: one-shot answers leave it unchanged, All answers set the
corresponding flag (and only that one). -/
theorem body_unflagged_conflict (env : Template.TEnv)
    (cfn : String → String → Template.ConflictAction) (total : Nat)
    (target file : String) (st : Template.SFState)
    (hov : st.engine.overwriteAll = false)
    (hsk : st.engine.skipAll = false)
    (hcc : env.conflictCheck file target = .ok true) :
    (Template.syncFilesBody env cfn total target file st).asks
        = st.asks ++ [(file, target)] ∧
    ((cfn file target = .overwrite ∨ cfn file target = .skip) →
      (Template.syncFilesBody env cfn total target file st).engine
        = st.engine) ∧
    (cfn file target = .overwriteAll →
      (Template.syncFilesBody env cfn total target file st).engine
        = { st.engine with overwriteAll := true }) ∧
    (cfn file target = .skipAll →
      (Template.syncFilesBody env cfn total target file st).engine
        = { st.engine with skipAll := true }) := by
  unfold Template.syncFilesBody
  rw [hcc]
  dsimp only
  rw [if_pos rfl, if_neg (by simp [hov]), if_neg (by simp [hsk])]
  rcases hcf : cfn file target with _ | _ | _ | _ <;>
    simp [hcf]

/-- One iteration preserves the callback invariant. -/
theorem body_asksInv (env : Template.TEnv)
    (cfn : String → String → Template.ConflictAction) (total : Nat)
    (target file : String) (st : Template.SFState)
    (h : asksInv cfn st) :
    asksInv cfn (Template.syncFilesBody env cfn total target file st) := by
  by_cases hfl : st.engine.overwriteAll = true ∨ st.engine.skipAll = true
  · obtain ⟨ha, he⟩ := body_flagged env cfn total target file st hfl
    refine ⟨?_, ?_⟩
    · intro hc a hx
      rw [he] at hc
      rw [ha] at hx
      exact h.1 hc a hx
    · intro a hx
      rw [ha] at hx
      exact h.2 a hx
  · push_neg at hfl
    have hov : st.engine.overwriteAll = false := by
      cases hq : st.engine.overwriteAll
      · rfl
      · exact absurd hq hfl.1
    have hsk : st.engine.skipAll = false := by
      cases hq : st.engine.skipAll
      · rfl
      · exact absurd hq hfl.2
    have hall : ∀ a ∈ st.asks, oneShot cfn a := h.1 ⟨hov, hsk⟩
    rcases hcc : env.conflictCheck file target with e | b
    · obtain ⟨ha, he⟩ := body_noconflict env cfn total target file st
        (Or.inl ⟨e, hcc⟩)
      refine ⟨fun hc a hx => hall a (by rwa [ha] at hx), fun a hx =>
        h.2 a (by rwa [ha] at hx)⟩
    · cases b with
      | false =>
        obtain ⟨ha, he⟩ := body_noconflict env cfn total target file st
          (Or.inr hcc)
        refine ⟨fun hc a hx => hall a (by rwa [ha] at hx), fun a hx =>
          h.2 a (by rwa [ha] at hx)⟩
      | true =>
        obtain ⟨ha, hone, hoall, hsall⟩ :=
          body_unflagged_conflict env cfn total target file st hov hsk hcc
        refine ⟨?_, ?_⟩
        · intro hc a hx
          rw [ha] at hx
          rcases List.mem_append.mp hx with hx | hx
          · exact hall a hx
          · simp only [List.mem_singleton] at hx
            subst hx
            rcases hcf : cfn file target with _ | _ | _ | _
            · exact Or.inl hcf
            · exact Or.inr hcf
            · rw [hoall hcf] at hc
              simp at hc
            · rw [hsall hcf] at hc
              simp at hc
        · intro a hx
          rw [ha, dropLast_append_single] at hx
          exact hall a hx

/-- The fold preserves the callback invariant. -/
theorem pairs_asksInv (env : Template.TEnv)
    (cfn : String → String → Template.ConflictAction) (total : Nat) :
    ∀ (ps : List (String × String)) (st : Template.SFState),
      asksInv cfn st → asksInv cfn (syncPairs env cfn total st ps)
  | [], st, h => h
  | p :: ps, st, h =>
    pairs_asksInv env cfn total ps _
      (body_asksInv env cfn total p.1 p.2 st h)

/-- With a sticky flag already set, the whole fold invokes no callback and
never changes the engine. -/
theorem pairs_flagged (env : Template.TEnv)
    (cfn : String → String → Template.ConflictAction) (total : Nat) :
    ∀ (ps : List (String × String)) (st : Template.SFState),
      (st.engine.overwriteAll = true ∨ st.engine.skipAll = true) →
      (syncPairs env cfn total st ps).asks = st.asks ∧
      (syncPairs env cfn total st ps).engine = st.engine
  | [], st, h => ⟨rfl, rfl⟩
  | p :: ps, st, h => by
    obtain ⟨ha, he⟩ := body_flagged env cfn total p.1 p.2 st h
    obtain ⟨ha2, he2⟩ := pairs_flagged env cfn total ps
      (Template.syncFilesBody env cfn total p.1 p.2 st) (by rw [he]; exact h)
    exact ⟨ha2.trans ha, he2.trans he⟩

/-- With skipAll set and overwriteAll clear, one iteration resolves a
conflicting file by skipping it. -/
theorem body_skipAll_result (env : Template.TEnv)
    (cfn : String → String → Template.ConflictAction) (total : Nat)
    (target file : String) (st : Template.SFState)
    (hov : st.engine.overwriteAll = false)
    (hsk : st.engine.skipAll = true) :
    ∀ r ∈ (Template.syncFilesBody env cfn total target file st).results,
      r ∈ st.results ∨
        (env.conflictCheck r.filePath r.targetRepo = .ok true →
          r.skipped = true) := by
  intro r hr
  unfold Template.syncFilesBody at hr
  rcases hcc : env.conflictCheck file target with e | b <;> rw [hcc] at hr
  · simp at hr
    rcases hr with hr | hr
    · exact Or.inl hr
    · subst hr
      exact Or.inr fun hcontra => by
        simp only at hcontra
        rw [hcc] at hcontra
        cases hcontra
  · cases b with
    | false =>
      simp at hr
      rcases hr with hr | hr
      · exact Or.inl hr
      · subst hr
        refine Or.inr fun hcontra => ?_
        obtain ⟨h1, h2, _, _⟩ := syncWrite_spec env file target
        rw [h1, h2, hcc] at hcontra
        cases hcontra
    | true =>
      simp [hov, hsk] at hr
      rcases hr with hr | hr
      · exact Or.inl hr
      · subst hr
        exact Or.inr fun _ => rfl

/-- With overwriteAll set, one iteration resolves a conflicting file by
writing it (never skipping). -/
theorem body_overwriteAll_result (env : Template.TEnv)
    (cfn : String → String → Template.ConflictAction) (total : Nat)
    (target file : String) (st : Template.SFState)
    (hov : st.engine.overwriteAll = true) :
    ∀ r ∈ (Template.syncFilesBody env cfn total target file st).results,
      r ∈ st.results ∨ r.skipped = false := by
  intro r hr
  unfold Template.syncFilesBody at hr
  rcases hcc : env.conflictCheck file target with e | b <;> rw [hcc] at hr
  · simp at hr
    rcases hr with hr | hr
    · exact Or.inl hr
    · subst hr
      exact Or.inr rfl
  · cases b with
    | false =>
      simp at hr
      rcases hr with hr | hr
      · exact Or.inl hr
      · subst hr
        exact Or.inr (syncWrite_spec env file target).2.2.1
    | true =>
      simp [hov] at hr
      rcases hr with hr | hr
      · exact Or.inl hr
      · subst hr
        exact Or.inr (syncWrite_spec env file target).2.2.1

/-- With skipAll set and overwriteAll clear, every conflicting result of the
fold is a skip. -/
theorem pairs_skipAll_results (env : Template.TEnv)
    (cfn : String → String → Template.ConflictAction) (total : Nat) :
    ∀ (ps : List (String × String)) (st : Template.SFState),
      st.engine.overwriteAll = false → st.engine.skipAll = true →
      ∀ r ∈ (syncPairs env cfn total st ps).results,
        r ∈ st.results ∨
          (env.conflictCheck r.filePath r.targetRepo = .ok true →
            r.skipped = true)
  | [], st, hov, hsk, r, hr => Or.inl hr
  | p :: ps, st, hov, hsk, r, hr => by
    obtain ⟨_, he⟩ := body_flagged env cfn total p.1 p.2 st (Or.inr hsk)
    rcases pairs_skipAll_results env cfn total ps
        (Template.syncFilesBody env cfn total p.1 p.2 st)
        (by rw [he]; exact hov) (by rw [he]; exact hsk) r hr with hr | hr
    · exact body_skipAll_result env cfn total p.1 p.2 st hov hsk r hr
    · exact Or.inr hr

/-- With overwriteAll set, no result of the fold is a skip. -/
theorem pairs_overwriteAll_results (env : Template.TEnv)
    (cfn : String → String → Template.ConflictAction) (total : Nat) :
    ∀ (ps : List (String × String)) (st : Template.SFState),
      st.engine.overwriteAll = true →
      ∀ r ∈ (syncPairs env cfn total st ps).results,
        r ∈ st.results ∨ r.skipped = false
  | [], st, hov, r, hr => Or.inl hr
  | p :: ps, st, hov, r, hr => by
    obtain ⟨_, he⟩ := body_flagged env cfn total p.1 p.2 st (Or.inl hov)
    rcases pairs_overwriteAll_results env cfn total ps
        (Template.syncFilesBody env cfn total p.1 p.2 st)
        (by rw [he]; exact hov) r hr with hr | hr
    · exact body_overwriteAll_result env cfn total p.1 p.2 st hov r hr
    · exact Or.inr hr

/-- If the callback always answers one-shot and the flags start clear, the
whole fold leaves the engine unchanged. -/
theorem pairs_oneShot_engine (env : Template.TEnv)
    (cfn : String → String → Template.ConflictAction) (total : Nat)
    (hone : ∀ f t, oneShot cfn (f, t)) :
    ∀ (ps : List (String × String)) (st : Template.SFState),
      st.engine.overwriteAll = false → st.engine.skipAll = false →
      (syncPairs env cfn total st ps).engine = st.engine
  | [], st, hov, hsk => rfl
  | p :: ps, st, hov, hsk => by
    have he : (Template.syncFilesBody env cfn total p.1 p.2 st).engine
        = st.engine := by
      rcases hcc : env.conflictCheck p.2 p.1 with e | b
      · exact (body_noconflict env cfn total p.1 p.2 st (Or.inl ⟨e, hcc⟩)).2
      · cases b with
        | false =>
          exact (body_noconflict env cfn total p.1 p.2 st (Or.inr hcc)).2
        | true =>
          exact (body_unflagged_conflict env cfn total p.1 p.2 st hov hsk
            hcc).2.1 (hone p.2 p.1)
    rw [syncPairs_cons,
      pairs_oneShot_engine env cfn total hone ps _ (by rw [he]; exact hov)
        (by rw [he]; exact hsk)]
    exact he

/-- C5: conflict handling in the background job follows the sticky-flag
pattern: with a sticky flag already set no conflict callback is ever
invoked; in any run, every callback except possibly the last is answered
Overwrite or Skip (an All answer is never followed by another prompt); under
SkipAll every conflicting file is resolved by skipping, under OverwriteAll
no file is skipped; and one-shot answers never set a flag, so the engine
flags are unchanged at the end of a run whose callback only answers
Overwrite or Skip. -/
theorem templateConflict_sticky (env : Template.TEnv)
    (cfn : String → String → Template.ConflictAction)
    (files targets : List String) (e : Template.Engine) :
    ((e.overwriteAll = true ∨ e.skipAll = true) →
      (Template.syncFiles env e files targets cfn).asks = []) ∧
    (∀ a ∈ (Template.syncFiles env e files targets cfn).asks.dropLast,
      oneShot cfn a) ∧
    (e.skipAll = true → e.overwriteAll = false →
      ∀ r ∈ (Template.syncFiles env e files targets cfn).results,
        env.conflictCheck r.filePath r.targetRepo = .ok true →
          r.skipped = true) ∧
    (e.overwriteAll = true →
      ∀ r ∈ (Template.syncFiles env e files targets cfn).results,
        r.skipped = false) ∧
    ((∀ f t, oneShot cfn (f, t)) → e.overwriteAll = false →
      e.skipAll = false →
      (Template.syncFiles env e files targets cfn).engine = e) := by
  rw [syncFiles_eq_pairs]
  refine ⟨?_, ?_, ?_, ?_, ?_⟩
  · intro hfl
    exact (pairs_flagged env cfn (files.length * targets.length)
      (pairsOf files targets) ⟨e, 0, [], [], []⟩ hfl).1
  · exact (pairs_asksInv env cfn (files.length * targets.length)
      (pairsOf files targets) ⟨e, 0, [], [], []⟩
      ⟨fun _ a ha => absurd ha (List.not_mem_nil a),
        fun a ha => absurd ha (by simp)⟩).2
  · intro hsk hov r hr hcc
    rcases pairs_skipAll_results env cfn (files.length * targets.length)
        (pairsOf files targets) ⟨e, 0, [], [], []⟩ hov hsk r hr with h | h
    · exact absurd h (List.not_mem_nil r)
    · exact h hcc
  · intro hov r hr
    rcases pairs_overwriteAll_results env cfn (files.length * targets.length)
        (pairsOf files targets) ⟨e, 0, [], [], []⟩ hov r hr with h | h
    · exact absurd h (List.not_mem_nil r)
    · exact h
  · intro hone hov hsk
    exact pairs_oneShot_engine env cfn (files.length * targets.length) hone
      (pairsOf files targets) ⟨e, 0, [], [], []⟩ hov hsk

/-- Environment for the C5 witness: every destination conflicts, all writes
succeed. -/
def c5Env : Template.TEnv :=
  { conflictCheck := fun _ _ => .ok true
    syncErr := fun _ _ => none }

/-- Witness for the C5 theorem: with skipAll already set every conflicting
file is skipped and the callback is never invoked; and in a fresh run whose
callback answers SkipAll, only the first conflict prompts. -/
theorem templateConflict_sticky_witness :
    (Template.syncFiles c5Env ⟨false, true⟩ ["a.txt"] ["/r1", "/r2"]
        (fun _ _ => Template.ConflictAction.skipAll)).asks = [] ∧
    (∀ r ∈ (Template.syncFiles c5Env ⟨false, true⟩ ["a.txt"] ["/r1", "/r2"]
        (fun _ _ => Template.ConflictAction.skipAll)).results,
      r.skipped = true) ∧
    (Template.syncFiles c5Env ⟨false, false⟩ ["a.txt", "b.txt"] ["/r1"]
        (fun _ _ => Template.ConflictAction.skipAll)).asks
      = [("a.txt", "/r1")] :=
  ⟨(templateConflict_sticky c5Env (fun _ _ => .skipAll) ["a.txt"]
      ["/r1", "/r2"] ⟨false, true⟩).1 (Or.inr rfl),
   fun r hr => (templateConflict_sticky c5Env (fun _ _ => .skipAll)
      ["a.txt"] ["/r1", "/r2"] ⟨false, true⟩).2.2.1 rfl rfl r hr rfl,
   by decide⟩

end Claims

end Reposync
